import Mathlib

/-!
Verification of the three-bits camera-control / event-dispatcher library.

The library's numeric code is modelled over exact fields (`ℚ` where every
operation is rational, `ℝ` where the source uses `Math.log`, `Math.PI` or
trigonometry); IEEE floating point rounding is outside the model, matching
the specification's "within floating-point tolerance" phrasing.

JavaScript `Infinity` defaults for option bounds are modelled by `Option ℚ`
(`none` = the infinite default); the comparisons `x < -Infinity` and
`x > Infinity` are both `false` in JS, and the model's comparison helpers
return `false` on `none` accordingly.
-/

namespace ThreeBits

/-! ## Zoom / dolly fragment (`control-fagments/zoom-dolly-fragment.ts`) -/

namespace ZoomDolly

/-- JS comparison `value < min` where `min` may be the `-Infinity` default
(`none`): `x < -Infinity` is always `false`. -/
def belowMin (v : ℚ) : Option ℚ → Bool
  | Option.none => false
  | Option.some m => decide (v < m)

/-- JS comparison `value > max` where `max` may be the `Infinity` default
(`none`): `x > Infinity` is always `false`. -/
def aboveMax (v : ℚ) : Option ℚ → Bool
  | Option.none => false
  | Option.some m => decide (v > m)

/-- `THREE.MathUtils.clamp(value, lo, hi) = Math.max(lo, Math.min(hi, value))`
with possibly infinite bounds (`none` = `-Infinity` for `lo`, `Infinity` for
`hi`, which are the `minZoom` / `maxZoom` defaults). -/
def mathClamp (lo hi : Option ℚ) (value : ℚ) : ℚ :=
  let m := match hi with
    | Option.none => value
    | Option.some h => min h value
  match lo with
  | Option.none => m
  | Option.some l => max l m

/-- Delta-to-multiplier used by `ZoomDollyFragment.zoom`:
`delta > 0 ? 1 / (1 + delta) : 1 - delta`. -/
def zoomDeltaMultiplier (delta : ℚ) : ℚ :=
  if delta > 0 then 1 / (1 + delta) else 1 - delta

/-- Delta-to-multiplier used by `ZoomDollyFragment.dolly` /
`zoomAndDolly`'s dolly part: `delta > 0 ? 1 + delta : 1 / (1 - delta)`. -/
def dollyDeltaMultiplier (delta : ℚ) : ℚ :=
  if delta > 0 then 1 + delta else 1 / (1 - delta)

/-- State touched by the pure-zoom path (`options.type == 'zoom'`):
the gesture-start zoom snapshot `start.zoom`, the live `camera.zoom`, and the
`minZoom` / `maxZoom` options (`none` = infinite default). -/
structure ZoomState where
  startZoom : ℚ
  cameraZoom : ℚ
  minZoom : Option ℚ
  maxZoom : Option ℚ
deriving DecidableEq, Repr

/-- One `zoom` step of `ZoomDollyFragment` followed by the
`camera.zoom *= zoomDelta` application performed by `zoomOrDolly`:

```
const deltaMultiplier = delta > 0 ? 1 / (1 + delta) : 1 - delta;
const newZoom = this.start.zoom * deltaMultiplier;
const clampedZoom = THREE.MathUtils.clamp(newZoom, minZoom, maxZoom);
const zoomDelta = clampedZoom / this.start.zoom;
this.start.zoom = clampedZoom;          // returns zoomDelta
camera.zoom *= zoomDelta;
``` -/
def zoomStep (s : ZoomState) (delta : ℚ) : ZoomState :=
  let newZoom := s.startZoom * zoomDeltaMultiplier delta
  let clampedZoom := mathClamp s.minZoom s.maxZoom newZoom
  let zoomDelta := clampedZoom / s.startZoom
  { s with startZoom := clampedZoom, cameraZoom := s.cameraZoom * zoomDelta }

/-- The min/max zoom clamp in `zoomStep` is not triggered for this state and
delta: the freshly computed zoom already lies within the configured bounds. -/
def zoomClampFree (s : ZoomState) (delta : ℚ) : Prop :=
  mathClamp s.minZoom s.maxZoom (s.startZoom * zoomDeltaMultiplier delta)
    = s.startZoom * zoomDeltaMultiplier delta

instance (s : ZoomState) (delta : ℚ) : Decidable (zoomClampFree s delta) := by
  unfold zoomClampFree; infer_instance

/-! ### `zoomAndDolly` (`options.type == 'zoomAndDolly'`)

`start.relativeTarget` only ever gets rescaled inside `zoomAndDolly`
(`multiplyScalar`, `clampLength`), so the vector is modelled by its signed
coordinate `relCoef` along the fixed gesture-start unit direction; the
Euclidean length of the vector is `|relCoef|`. -/

/-- State touched by `zoomAndDolly`: zoom snapshot, relative-target
coordinate, and the four clamp options. `minDistance` defaults to `0`
(finite), the other three default to infinities (`none`). -/
structure ZadState where
  startZoom : ℚ
  relCoef : ℚ
  minZoom : Option ℚ
  maxZoom : Option ℚ
  minDistance : ℚ
  maxDistance : Option ℚ
deriving DecidableEq, Repr

/-- The repository's `clamp(value, min, max, cb)` helper
(`common/internal/clamp.ts`) reports through `cb` the bound it clamped to;
this returns that reported bound, `none` when no clamping happened. -/
def clampCallbackValue (v : ℚ) (lo hi : Option ℚ) : Option ℚ :=
  if belowMin v lo then lo else if aboveMax v hi then hi else Option.none

/-- The repository's `clampLength(value, min, max, cb)` helper
(`common/internal/clamp-length.ts`) on the coordinate model: it reports
through `cb` the rescaled vector `value.divideScalar(len).multiplyScalar(bound)`
when the length `|coef|` falls outside `[min, max]`; this returns that
reported coordinate, `none` when no clamping happened. -/
def clampLengthCoef (coef : ℚ) (lo : ℚ) (hi : Option ℚ) : Option ℚ :=
  let len := |coef|
  if len < lo then Option.some (coef / len * lo)
  else if aboveMax len hi then
    Option.some (coef / len * (hi.getD 0))
  else Option.none

/-- `zoomClampRatio` of `ZoomDollyFragment.zoomAndDolly`: initialised to `1`,
set to `newZoom / value` by the clamp callback. -/
def zadZoomClampR (s : ZadState) (delta : ℚ) : ℚ :=
  let newZoom := s.startZoom * zoomDeltaMultiplier delta
  ((clampCallbackValue newZoom s.minZoom s.maxZoom).map (fun c => newZoom / c)).getD 1

/-- `dollyClampRatio` of `ZoomDollyFragment.zoomAndDolly`: initialised to `1`,
set to `value.length() / newRelativeTarget.length()` by the clamp-length
callback. -/
def zadDollyClampR (s : ZadState) (delta : ℚ) : ℚ :=
  let newRel := s.relCoef * dollyDeltaMultiplier delta
  ((clampLengthCoef newRel s.minDistance s.maxDistance).map (fun c => |c| / |newRel|)).getD 1

/-- Outcome of one `zoomAndDolly` call: updated snapshot state plus the
returned `zoomDelta` and (coordinate of) `dollyDelta`. -/
structure ZadResult where
  state : ZadState
  zoomDelta : ℚ
  dollyDeltaCoef : ℚ
deriving DecidableEq, Repr

/-- `ZoomDollyFragment.zoomAndDolly(delta)`:

```
let zoomClampRatio = 1;  clamp(newZoom, minZoom, maxZoom, v => r = newZoom/v);
let dollyClampRatio = 1; clampLength(newRelTarget, minD, maxD, v => r = |v|/|newRelTarget|);
if (|1 - zoomClampRatio| > |1 - dollyClampRatio|) { use zoomClampRatio }
else { use dollyClampRatio }
clampedZoom = newZoom / ratio; clampedRelativeTarget = newRelTarget * ratio;
``` -/
def zoomAndDolly (s : ZadState) (delta : ℚ) : ZadResult :=
  let newZoom := s.startZoom * zoomDeltaMultiplier delta
  let newRel := s.relCoef * dollyDeltaMultiplier delta
  let zr := zadZoomClampR s delta
  let dr := zadDollyClampR s delta
  let clampedZoom := if |1 - zr| > |1 - dr| then newZoom / zr else newZoom / dr
  let clampedRel := if |1 - zr| > |1 - dr| then newRel * zr else newRel * dr
  { state := { s with startZoom := clampedZoom, relCoef := clampedRel }
    zoomDelta := clampedZoom / s.startZoom
    dollyDeltaCoef := s.relCoef - clampedRel }

/-- The clamp ratio `zoomAndDolly` ends up applying: `zoomClampRatio` when
`|1 - zoomClampRatio| > |1 - dollyClampRatio|`, `dollyClampRatio`
otherwise. -/
def zadChosenR (s : ZadState) (delta : ℚ) : ℚ :=
  if |1 - zadZoomClampR s delta| > |1 - zadDollyClampR s delta|
  then zadZoomClampR s delta else zadDollyClampR s delta

/-- At least one of the two clamps fired in this `zoomAndDolly` frame (its
clamp callback was invoked). -/
def zadClampTriggered (s : ZadState) (delta : ℚ) : Prop :=
  (clampCallbackValue (s.startZoom * zoomDeltaMultiplier delta)
      s.minZoom s.maxZoom).isSome = true
  ∨ (clampLengthCoef (s.relCoef * dollyDeltaMultiplier delta)
      s.minDistance s.maxDistance).isSome = true

instance (s : ZadState) (delta : ℚ) : Decidable (zadClampTriggered s delta) := by
  unfold zadClampTriggered; infer_instance

end ZoomDolly

/-! ## Wheel handler (`controls/handlers/wheel-handler.ts`) -/

namespace Wheel

/-- 2D vector over `ℝ` (`THREE.Vector2`). -/
structure Vec2R where
  x : ℝ
  y : ℝ

/-- The bounding-rectangle and client-size data of the DOM element that
`calculatePointerCoords` reads. -/
structure DomRect where
  rectLeft : ℝ
  rectTop : ℝ
  clientWidth : ℝ
  clientHeight : ℝ

/-- The fields of a `WheelEvent` consumed by `WheelHandler.handleWheel`. -/
structure WheelEv where
  deltaY : ℝ
  clientX : ℝ
  clientY : ℝ

/-- `ActivePointer`: current, starting and delta coordinates. -/
structure ActivePointerR where
  coords : Vec2R
  startCoords : Vec2R
  delta : Vec2R

/-- `calculatePointerCoords(event, domElement)` (`utils/calculate-pointer-coords.ts`):
normalized device coordinates from client coordinates. -/
noncomputable def calculatePointerCoords (ev : WheelEv) (dom : DomRect) : Vec2R :=
  ⟨((ev.clientX - dom.rectLeft) / dom.clientWidth) * 2 - 1,
    -(((ev.clientY - dom.rectTop) / dom.clientHeight) * 2 - 1)⟩

/-- `WheelHandler` configuration (`inverse`, default `false`). -/
structure WheelOpts where
  inverse : Bool

/-- `WheelHandler.handleWheel(event)`: the pair passed to the `onChange`
listener. `ZoomLogScaleFactorA = 1`, `ZoomLogScaleFactorB = 40`:

```
const absDelta = Math.abs(event.deltaY);
const scaledDelta = Math.log(1 + 1 * absDelta) / 40;
const wheelDelta = Math.sign(event.deltaY) * scaledDelta;
const coords = calculatePointerCoords(event, this.domElement);
const activePointer = { coords, startCoords: coords.clone(), delta: new Vector2() };
this.onChange(this.options.inverse ? wheelDelta : -wheelDelta, activePointer);
``` -/
noncomputable def handleWheel (o : WheelOpts) (ev : WheelEv) (dom : DomRect) :
    ℝ × ActivePointerR :=
  let absDelta := |ev.deltaY|
  let scaledDelta := Real.log (1 + 1 * absDelta) / 40
  let wheelDelta := Real.sign ev.deltaY * scaledDelta
  let coords := calculatePointerCoords ev dom
  (if o.inverse then wheelDelta else -wheelDelta, ⟨coords, coords, ⟨0, 0⟩⟩)

/-- The scalar delta as the claim words it: `sign(deltaY) * log(1 + |deltaY|) / K`
with `K = 40`, "inverted exactly when the inverse configuration option is
set". -/
noncomputable def claimedWheelDelta (o : WheelOpts) (ev : WheelEv) : ℝ :=
  (if o.inverse then -1 else 1) * (Real.sign ev.deltaY * (Real.log (1 + |ev.deltaY|) / 40))

end Wheel

/-! ## Shared option helpers (`common/internal/getSpeed.ts`, `getInvert.ts`) -/

/-- Pointer device type (`'pointer' | 'touch'`). -/
inductive PointerKind
  | pointer
  | touch
deriving DecidableEq, Repr

/-- A speed option: `number | { pointer: number; touch: number }`. -/
inductive SpeedOpt (α : Type)
  | scalar (v : α)
  | pair (p t : α)
deriving DecidableEq, Repr

/-- `getSpeed(speedOption, type)`. -/
def getSpeed {α : Type} : SpeedOpt α → PointerKind → α
  | SpeedOpt.scalar v, _ => v
  | SpeedOpt.pair _ t, PointerKind.touch => t
  | SpeedOpt.pair p _, PointerKind.pointer => p

/-- An invert option: `boolean | { pointer: boolean; touch: boolean }`. -/
inductive InvertOpt
  | flag (b : Bool)
  | pair (p t : Bool)
deriving DecidableEq, Repr

/-- `getInvert(invertOption, type)`. -/
def getInvert : InvertOpt → PointerKind → Bool
  | InvertOpt.flag b, _ => b
  | InvertOpt.pair _ t, PointerKind.touch => t
  | InvertOpt.pair p _, PointerKind.pointer => p

/-! ## Rational 3D geometry (`utils/calculate-pointer-target.ts` and the
three.js primitives it calls)

Every operation in `calculatePointerTarget` is rational except square roots
(`Vector3.length`, the `Math.sqrt` in `Ray.intersectSphere`); those are taken
as an abstract parameter `sq : ℚ → ℚ` applied to the squared quantity, so
the development is parametric in the square-root routine. -/

namespace Geom

/-- 2D vector over `ℚ` (`THREE.Vector2`). -/
structure Vec2Q where
  x : ℚ
  y : ℚ
deriving DecidableEq, Repr

/-- 3D vector over `ℚ` (`THREE.Vector3`). -/
structure Vec3Q where
  x : ℚ
  y : ℚ
  z : ℚ
deriving DecidableEq, Repr

/-- Componentwise vector addition. -/
def vadd (a b : Vec3Q) : Vec3Q := ⟨a.x + b.x, a.y + b.y, a.z + b.z⟩

/-- Componentwise vector subtraction. -/
def vsub (a b : Vec3Q) : Vec3Q := ⟨a.x - b.x, a.y - b.y, a.z - b.z⟩

/-- Scalar multiple of a vector (`multiplyScalar`). -/
def vsmul (c : ℚ) (a : Vec3Q) : Vec3Q := ⟨c * a.x, c * a.y, c * a.z⟩

/-- Dot product. -/
def vdot (a b : Vec3Q) : ℚ := a.x * b.x + a.y * b.y + a.z * b.z

/-- Squared Euclidean length. -/
def normSq (a : Vec3Q) : ℚ := vdot a a

/-- `Vector3.length()` via the abstract square root. -/
def vlen (sq : ℚ → ℚ) (a : Vec3Q) : ℚ := sq (normSq a)

/-- `THREE.Plane`: unit `normal` and `constant`, the plane being
`normal ⬝ p + constant = 0`. -/
structure PlaneQ where
  normal : Vec3Q
  constant : ℚ
deriving DecidableEq, Repr

/-- `Plane.distanceToPoint(point) = normal ⬝ point + constant`. -/
def planeDistanceToPoint (p : PlaneQ) (v : Vec3Q) : ℚ := vdot p.normal v + p.constant

/-- `Plane.projectPoint(point) = point - normal * distanceToPoint(point)`. -/
def planeProjectPoint (p : PlaneQ) (v : Vec3Q) : Vec3Q :=
  vsub v (vsmul (planeDistanceToPoint p v) p.normal)

/-- `THREE.Ray`: origin and (unit) direction. -/
structure RayQ where
  origin : Vec3Q
  dir : Vec3Q
deriving DecidableEq, Repr

/-- `Ray.at(t) = origin + t * direction`. -/
def rayAt (r : RayQ) (t : ℚ) : Vec3Q := vadd r.origin (vsmul t r.dir)

/-- `Ray.distanceToPlane(plane)`:

```
const denominator = plane.normal.dot(this.direction);
if (denominator === 0) return plane.distanceToPoint(this.origin) === 0 ? 0 : null;
const t = -(this.origin.dot(plane.normal) + plane.constant) / denominator;
return t >= 0 ? t : null;
``` -/
def rayDistanceToPlane (r : RayQ) (p : PlaneQ) : Option ℚ :=
  let denom := vdot p.normal r.dir
  if denom = 0 then
    if planeDistanceToPoint p r.origin = 0 then Option.some 0 else Option.none
  else
    let t := -(vdot r.origin p.normal + p.constant) / denom
    if t ≥ 0 then Option.some t else Option.none

/-- `Ray.intersectPlane(plane)`. -/
def rayIntersectPlane (r : RayQ) (p : PlaneQ) : Option Vec3Q :=
  (rayDistanceToPlane r p).map (rayAt r)

/-- `THREE.Sphere`. -/
structure SphereQ where
  center : Vec3Q
  radius : ℚ
deriving DecidableEq, Repr

/-- `Ray.intersectSphere(sphere)`:

```
_vector.subVectors(sphere.center, this.origin);
const tca = _vector.dot(this.direction);
const d2 = _vector.dot(_vector) - tca * tca;
const radius2 = sphere.radius * sphere.radius;
if (d2 > radius2) return null;
const thc = Math.sqrt(radius2 - d2);
const t0 = tca - thc; const t1 = tca + thc;
if (t1 < 0) return null;
if (t0 < 0) return this.at(t1, target);
return this.at(t0, target);
``` -/
def rayIntersectSphere (sq : ℚ → ℚ) (r : RayQ) (s : SphereQ) : Option Vec3Q :=
  let oc := vsub s.center r.origin
  let tca := vdot oc r.dir
  let d2 := vdot oc oc - tca * tca
  let radius2 := s.radius * s.radius
  if d2 > radius2 then Option.none
  else
    let thc := sq (radius2 - d2)
    let t0 := tca - thc
    let t1 := tca + thc
    if t1 < 0 then Option.none
    else if t0 < 0 then Option.some (rayAt r t1)
    else Option.some (rayAt r t0)

/-- `Vector3.clampLength(min, max)`:
`divideScalar(length || 1).multiplyScalar(Math.max(min, Math.min(max, length)))`. -/
def vclampLength (sq : ℚ → ℚ) (v : Vec3Q) (lo hi : ℚ) : Vec3Q :=
  let len := vlen sq v
  let d := if len = 0 then 1 else len
  vsmul (max lo (min hi len) / d) v

/-- `Vector3.setLength(l)`: `normalize().multiplyScalar(l)` where `normalize`
divides by `length || 1`. -/
def vsetLength (sq : ℚ → ℚ) (v : Vec3Q) (l : ℚ) : Vec3Q :=
  let len := vlen sq v
  let d := if len = 0 then 1 else len
  vsmul (l / d) v

/-- Camera projection kind, standing in for the
`camera instanceof THREE.OrthographicCamera` tests. -/
inductive CameraKind
  | perspective
  | orthographic
deriving DecidableEq, Repr

/-- The camera data `calculatePointerTarget` consumes: projection kind and
world position. -/
structure CameraQ where
  kind : CameraKind
  position : Vec3Q
deriving DecidableEq, Repr

/-- `calculatePointerTarget(camera, plane, ray, maxDistance)`
(`utils/calculate-pointer-target.ts`). `maxDistance` is the raycaster's
`far` value; JS truthiness `if (maxDistance)` is `maxDistance ≠ 0`. The
`Infinity` default is not modelled: with an infinite `far` the sphere branch
always produces a (non-finite) point, never `null`, so the finite model
covers every input on which the function can return `null`. -/
def calculatePointerTarget (sq : ℚ → ℚ) (camera : CameraQ) (plane : PlaneQ)
    (ray : RayQ) (maxDistance : ℚ) : Option Vec3Q :=
  let firstTry := rayIntersectPlane ray plane
  let planeIntersection := firstTry.orElse (fun _ =>
    if camera.kind = CameraKind.orthographic then
      rayIntersectPlane { ray with dir := vsmul (-1) ray.dir } plane
    else Option.none)
  let projectedCameraPosition := planeProjectPoint plane camera.position
  planeIntersection.elim
    (if maxDistance ≠ 0 then
      (rayIntersectSphere sq ray ⟨camera.position, maxDistance⟩).map (fun si =>
        let si' := planeProjectPoint plane si
        vadd projectedCameraPosition
          (vsetLength sq (vsub si' projectedCameraPosition) maxDistance))
    else Option.none)
    (fun p =>
      if maxDistance ≠ 0 then
        Option.some (vadd projectedCameraPosition
          (vclampLength sq (vsub p projectedCameraPosition) 0 maxDistance))
      else Option.some p)

end Geom

/-! ## Truck fragment, exact mode (`control-fagments/truck-fragment.ts`) -/

namespace Truck

open Geom

/-- `ActivePointer` with rational coordinates plus its device type. -/
structure ActivePointerQ where
  coords : Vec2Q
  startCoords : Vec2Q
  delta : Vec2Q
  kind : PointerKind
deriving DecidableEq, Repr

/-- `getCoordsFromActivePointers`: midpoint of the two pointers' coords for a
two-finger gesture, otherwise the first pointer's coords. (The JS code
indexes `activePointers[0]` unconditionally; the empty-list value is an
arbitrary total-function default, never taken in the claims.) -/
def getCoordsFromActivePointers : List ActivePointerQ → Vec2Q
  | [a, b] => ⟨(a.coords.x + b.coords.x) / 2, (a.coords.y + b.coords.y) / 2⟩
  | a :: _ => a.coords
  | [] => ⟨0, 0⟩

/-- Device type of `activePointers[0]` (`pointer` as the never-taken
empty-list default). -/
def firstPointerKind : List ActivePointerQ → PointerKind
  | a :: _ => a.kind
  | [] => PointerKind.pointer

/-- The `TruckFragment` options consumed on the exact-mode pointer path. -/
structure TruckOpts where
  enabled : Bool
  speed : SpeedOpt ℚ
  maxDistance : ℚ
deriving DecidableEq, Repr

/-- The `TruckFragment` state consumed by `handlePointerInputExact`: the
gesture-start camera clone (`start.camera`), pan plane (`start.plane`),
reference intersection (`start.exact.pointerTarget`), plus the live camera
position and target mutated in place. -/
structure TruckState where
  opts : TruckOpts
  startCameraKind : CameraKind
  startCameraPos : Vec3Q
  startPlane : PlaneQ
  startPointerTarget : Vec3Q
  cameraPos : Vec3Q
  target : Vec3Q
deriving DecidableEq, Repr

/-- `TruckFragment.handlePointerInputExact(activePointers, camera, target)`.
`rayFromCamera` abstracts `raycaster.setFromCamera(coords, start.camera)`
(pure camera-projection math, quantified over in the theorems):

```
const coords = getCoordsFromActivePointers(activePointers);
this.raycaster.setFromCamera(coords, this.start.camera);
const intersection = calculatePointerTarget(start.camera, start.plane, ray, far);
if (!intersection) return;
const speed = getSpeed(this.options.speed, activePointers[0].type);
const positionDelta = intersection.clone().sub(start.exact.pointerTarget).multiplyScalar(-speed);
this.start.exact.pointerTarget.copy(intersection);
camera.position.add(positionDelta); target.add(positionDelta);
``` -/
def handlePointerInputExact (sq : ℚ → ℚ)
    (rayFromCamera : Vec2Q → CameraQ → RayQ)
    (activePointers : List ActivePointerQ) (s : TruckState) : TruckState :=
  let coords := getCoordsFromActivePointers activePointers
  let startCamera : CameraQ := ⟨s.startCameraKind, s.startCameraPos⟩
  let ray := rayFromCamera coords startCamera
  (calculatePointerTarget sq startCamera s.startPlane ray s.opts.maxDistance).elim s
    (fun intersection =>
      let speed := getSpeed s.opts.speed (firstPointerKind activePointers)
      let positionDelta := vsmul (-speed) (vsub intersection s.startPointerTarget)
      { s with
        startPointerTarget := intersection
        cameraPos := vadd s.cameraPos positionDelta
        target := vadd s.target positionDelta })

end Truck

/-! ## Fixed-up rotation fragment, angle bookkeeping

Two generations of `FixedUpRotationFragment` live in the repository:
`RotA` models `control-fagments/fixed-up-rotation-fragment.ts` (caps the
configured vertical bounds in `updateOptions`), `RotB` models the
`control-fragments` generation (caps them inside `rotateTo`, and wraps the
horizontal angle into `[-π, π]` there). Angles are real numbers;
`Math.PI` is `Real.pi`. The world-space `cameraDelta` / `targetDelta`
outputs of `rotateBy` / `rotateTo` do not touch fragment state and are not
part of the state model; the stored `horizontalAngle` / `verticalAngle`
are modelled exactly. -/

/-- `AbsoluteMaxVerticalAngle = Math.PI / 2 - 1e-8`. -/
noncomputable def absMaxVerticalAngle : ℝ := Real.pi / 2 - 1 / 100000000

namespace RotA

/-- `FixedUpRotationFragmentOptions` fields involved in angle bookkeeping.
Horizontal bounds may be the `∓Infinity` defaults (`none`); vertical bounds
are finite numbers (defaults `∓AbsoluteMaxVerticalAngle`). -/
structure Options where
  enabled : Bool
  speed : SpeedOpt ℝ
  minHorizontalAngle : Option ℝ
  maxHorizontalAngle : Option ℝ
  minVerticalAngle : ℝ
  maxVerticalAngle : ℝ
  invertHorizontal : InvertOpt
  invertVertical : InvertOpt

/-- `DefaultRotationControlOptions` of the `control-fagments` generation. -/
noncomputable def defaultOptions : Options :=
  { enabled := true
    speed := SpeedOpt.scalar 1
    minHorizontalAngle := Option.none
    maxHorizontalAngle := Option.none
    minVerticalAngle := -absMaxVerticalAngle
    maxVerticalAngle := absMaxVerticalAngle
    invertHorizontal := InvertOpt.flag false
    invertVertical := InvertOpt.flag false }

/-- A `Partial<FixedUpRotationFragmentOptions>` patch: `none` = key absent. -/
structure OptionsPatch where
  enabled : Option Bool := Option.none
  speed : Option (SpeedOpt ℝ) := Option.none
  minHorizontalAngle : Option (Option ℝ) := Option.none
  maxHorizontalAngle : Option (Option ℝ) := Option.none
  minVerticalAngle : Option ℝ := Option.none
  maxVerticalAngle : Option ℝ := Option.none
  invertHorizontal : Option InvertOpt := Option.none
  invertVertical : Option InvertOpt := Option.none

/-- `FixedUpRotationFragment.updateOptions(options)`: merge-assign the given
keys, then cap the bounds:

```
if (min !== -Infinity) min = Math.max(min, -2π);
if (max !== Infinity) max = Math.min(max, 2π);
minVerticalAngle = Math.max(minVerticalAngle, -AbsoluteMaxVerticalAngle);
maxVerticalAngle = Math.min(maxVerticalAngle, AbsoluteMaxVerticalAngle);
``` -/
noncomputable def updateOptions (o : Options) (p : OptionsPatch) : Options :=
  let merged : Options :=
    { enabled := p.enabled.getD o.enabled
      speed := p.speed.getD o.speed
      minHorizontalAngle := p.minHorizontalAngle.getD o.minHorizontalAngle
      maxHorizontalAngle := p.maxHorizontalAngle.getD o.maxHorizontalAngle
      minVerticalAngle := p.minVerticalAngle.getD o.minVerticalAngle
      maxVerticalAngle := p.maxVerticalAngle.getD o.maxVerticalAngle
      invertHorizontal := p.invertHorizontal.getD o.invertHorizontal
      invertVertical := p.invertVertical.getD o.invertVertical }
  { merged with
    minHorizontalAngle := merged.minHorizontalAngle.map (fun v => max v (-(2 * Real.pi)))
    maxHorizontalAngle := merged.maxHorizontalAngle.map (fun v => min v (2 * Real.pi))
    minVerticalAngle := max merged.minVerticalAngle (-absMaxVerticalAngle)
    maxVerticalAngle := min merged.maxVerticalAngle absMaxVerticalAngle }

/-- `THREE.MathUtils.clamp(value, lo, hi) = Math.max(lo, Math.min(hi, value))`
over `ℝ`, with possibly infinite bounds (`none`). -/
noncomputable def clampOpt (lo hi : Option ℝ) (value : ℝ) : ℝ :=
  let m := match hi with
    | Option.none => value
    | Option.some h => min h value
  match lo with
  | Option.none => m
  | Option.some l => max l m

/-- Fragment state: options, the two stored angles and the `orbit` mode
flag fixed at construction. -/
structure Frag where
  opts : Options
  horizontalAngle : ℝ
  verticalAngle : ℝ
  orbit : Bool

/-- The angle-bookkeeping part of `FixedUpRotationFragment.rotateBy`:
clamp `angle + delta` into the configured bounds and store it (the
world-space deltas derived from the clamped deltas leave fragment state
untouched). -/
noncomputable def rotateBy (s : Frag) (verticalAngleDelta horizontalAngleDelta : ℝ) : Frag :=
  let newHorizontalAngle := clampOpt s.opts.minHorizontalAngle s.opts.maxHorizontalAngle
    (s.horizontalAngle + horizontalAngleDelta)
  let newVerticalAngle := max s.opts.minVerticalAngle
    (min s.opts.maxVerticalAngle (s.verticalAngle + verticalAngleDelta))
  { s with horizontalAngle := newHorizontalAngle, verticalAngle := newVerticalAngle }

/-- The angle-bookkeeping part of `FixedUpRotationFragment.rotateTo`: clamp
the requested absolute angles into the configured bounds and store them. -/
noncomputable def rotateTo (s : Frag) (verticalAngle horizontalAngle : ℝ) : Frag :=
  let newHorizontalAngle := clampOpt s.opts.minHorizontalAngle s.opts.maxHorizontalAngle
    horizontalAngle
  let newVerticalAngle := max s.opts.minVerticalAngle
    (min s.opts.maxVerticalAngle verticalAngle)
  { s with horizontalAngle := newHorizontalAngle, verticalAngle := newVerticalAngle }

/-- `FixedUpRotationFragment.handlePointerInput`: bail out when disabled,
otherwise derive the angle deltas from the first pointer's `delta`
(aspect-corrected, speed-scaled, sign-flipped per mode and invert options)
and apply `rotateBy`. -/
noncomputable def handlePointerInput (s : Frag) (delta : Wheel.Vec2R)
    (kind : PointerKind) (aspect : ℝ) : Frag :=
  if s.opts.enabled = false then s
  else
    let speed := getSpeed s.opts.speed kind
    let invertHorizontal := getInvert s.opts.invertHorizontal kind
    let invertVertical := getInvert s.opts.invertVertical kind
    let horizontalAngleDelta0 := delta.x * aspect * speed
    let verticalAngleDelta0 := delta.y * speed
    let horizontalAngleDelta :=
      if s.orbit then (if invertHorizontal then -horizontalAngleDelta0 else horizontalAngleDelta0)
      else (if invertHorizontal then horizontalAngleDelta0 else -horizontalAngleDelta0)
    let verticalAngleDelta :=
      if invertVertical then verticalAngleDelta0 else -verticalAngleDelta0
    rotateBy s verticalAngleDelta horizontalAngleDelta

/-- `setVerticalAngle(angle)`: `rotateTo(angle, this.horizontalAngle)`. -/
noncomputable def setVerticalAngle (s : Frag) (angle : ℝ) : Frag :=
  rotateTo s angle s.horizontalAngle

/-- `setHorizontalAngle(angle)`: `rotateTo(this.verticalAngle, angle)`. -/
noncomputable def setHorizontalAngle (s : Frag) (angle : ℝ) : Frag :=
  rotateTo s s.verticalAngle angle

/-- One operation of the fragment's angle-mutating API surface. -/
inductive Op
  | updateOptions (p : OptionsPatch)
  | handlePointerInput (delta : Wheel.Vec2R) (kind : PointerKind) (aspect : ℝ)
  | rotateBy (dv dh : ℝ)
  | rotateTo (v h : ℝ)
  | setVerticalAngle (a : ℝ)
  | setHorizontalAngle (a : ℝ)

/-- Apply one operation to the fragment state. -/
noncomputable def step (s : Frag) : Op → Frag
  | Op.updateOptions p => { s with opts := updateOptions s.opts p }
  | Op.handlePointerInput d k a => handlePointerInput s d k a
  | Op.rotateBy dv dh => rotateBy s dv dh
  | Op.rotateTo v h => rotateTo s v h
  | Op.setVerticalAngle a => setVerticalAngle s a
  | Op.setHorizontalAngle a => setHorizontalAngle s a

/-- Apply a sequence of operations. -/
noncomputable def applyOps (s : Frag) (ops : List Op) : Frag := ops.foldl step s

/-- Freshly constructed fragment: default options, both stored angles `0`. -/
noncomputable def initFrag (orbit : Bool) : Frag :=
  { opts := defaultOptions, horizontalAngle := 0, verticalAngle := 0, orbit := orbit }

/-- The configured (already capped) vertical bounds are ordered. This is the
well-formedness that `updateOptions` fails to enforce when the caller passes
`minVerticalAngle > π/2 - 1e-8` or `maxVerticalAngle < -(π/2 - 1e-8)`. -/
def orderedVerticalBounds (s : Frag) : Prop :=
  s.opts.minVerticalAngle ≤ s.opts.maxVerticalAngle

/-- A run is valid when the vertical bounds are ordered at every
intermediate state it passes through. -/
def validRun : Frag → List Op → Prop
  | s, [] => orderedVerticalBounds s
  | s, op :: rest => orderedVerticalBounds s ∧ validRun (step s op) rest

/-- The invariant the vertical-angle claim is about: the capped bounds and
the stored vertical angle stay within `±AbsoluteMaxVerticalAngle`. -/
def goodFrag (s : Frag) : Prop :=
  -absMaxVerticalAngle ≤ s.opts.minVerticalAngle
  ∧ s.opts.maxVerticalAngle ≤ absMaxVerticalAngle
  ∧ |s.verticalAngle| ≤ absMaxVerticalAngle

end RotA

namespace RotB

/-- Truncation toward zero, as JS `%` uses for the quotient. -/
noncomputable def jsTrunc (t : ℝ) : ℤ := if 0 ≤ t then ⌊t⌋ else ⌈t⌉

/-- The JS remainder `x % y`: `x - y * trunc(x / y)`, sign of the dividend. -/
noncomputable def jsfmod (x y : ℝ) : ℝ := x - y * (jsTrunc (x / y) : ℝ)

/-- Options of the `control-fragments` generation fragment (defaults:
horizontal bounds `∓Infinity`, vertical bounds `∓π`). -/
structure Options where
  enabled : Bool
  speed : SpeedOpt ℝ
  minHorizontalAngle : Option ℝ
  maxHorizontalAngle : Option ℝ
  minVerticalAngle : ℝ
  maxVerticalAngle : ℝ
  invertHorizontal : InvertOpt
  invertVertical : InvertOpt

/-- `DefaultRotationControlOptions` of the `control-fragments` generation. -/
noncomputable def defaultOptions : Options :=
  { enabled := true
    speed := SpeedOpt.scalar 1
    minHorizontalAngle := Option.none
    maxHorizontalAngle := Option.none
    minVerticalAngle := -Real.pi
    maxVerticalAngle := Real.pi
    invertHorizontal := InvertOpt.flag false
    invertVertical := InvertOpt.flag false }

/-- Fragment state: options, stored angles, `orbit` flag. -/
structure Frag where
  opts : Options
  horizontalAngle : ℝ
  verticalAngle : ℝ
  orbit : Bool

/-- The deliberately non-standard horizontal clamp of this generation's
`rotateTo` (handles `min > max` as an exclusion zone):
`if (h < min) h = min; else if (h > max) h = max;` with the `∓Infinity`
defaults making both tests false. -/
noncomputable def customHorizontalClamp (lo hi : Option ℝ) (h : ℝ) : ℝ :=
  let belowLo := match lo with
    | Option.some l => decide (h < l)
    | Option.none => false
  let aboveHi := match hi with
    | Option.some u => decide (h > u)
    | Option.none => false
  if belowLo then lo.getD 0 else if aboveHi then hi.getD 0 else h

/-- The angle-bookkeeping part of this generation's
`FixedUpRotationFragment.rotateTo`:

```
newH = customClamp(horizontalAngle, min, max);
if (newH > π) newH = ((newH + π) % (2π)) - π;
else if (newH < -π) newH = ((newH - π) % (2π)) + π;
this.horizontalAngle = newH;
minV = Math.max(options.minVerticalAngle, -AbsoluteMaxVerticalAngle);
maxV = Math.min(options.maxVerticalAngle, AbsoluteMaxVerticalAngle);
this.verticalAngle = MathUtils.clamp(verticalAngle, minV, maxV);
``` -/
noncomputable def rotateTo (s : Frag) (verticalAngle horizontalAngle : ℝ) : Frag :=
  let clamped := customHorizontalClamp s.opts.minHorizontalAngle s.opts.maxHorizontalAngle
    horizontalAngle
  let newHorizontalAngle :=
    if clamped > Real.pi then jsfmod (clamped + Real.pi) (Real.pi * 2) - Real.pi
    else if clamped < -Real.pi then jsfmod (clamped - Real.pi) (Real.pi * 2) + Real.pi
    else clamped
  let minVerticalAngle := max s.opts.minVerticalAngle (-absMaxVerticalAngle)
  let maxVerticalAngle := min s.opts.maxVerticalAngle absMaxVerticalAngle
  let newVerticalAngle := max minVerticalAngle (min maxVerticalAngle verticalAngle)
  { s with horizontalAngle := newHorizontalAngle, verticalAngle := newVerticalAngle }

end RotB

/-! ## Event dispatcher (`event-dispatcher/three-event-dispatcher.ts`)

Scene objects are identifiers; the scene graph enters through a
`parents : Obj → List Obj` function giving exactly what
`ThreeEventDispatcher.getParents` computes (nearest ancestor first, scene
root last). Listeners are opaque apart from (a) their identity, (b) the
`stopPropagation` / `stopImmediatePropagation` calls they make during their
own invocation, modelled by a `StopBehavior` tag; other registry mutations
from inside a callback are outside the model. The dispatch functions return
the list of listener invocations (`FireRecord`s) in execution order together
with the updated state. -/

namespace Dispatch

/-- Scene object identifier (`THREE.Object3D` identity). -/
abbrev Obj := Nat

/-- `ThreeEventType`. -/
inductive EventType
  | pointerdown
  | pointermove
  | pointerup
  | pointercancel
  | pointerenter
  | pointerleave
  | pointerover
  | pointerout
  | click
  | dblclick
  | wheel
deriving DecidableEq, Repr

/-- `EventPhases`. -/
inductive Phase
  | capturing
  | atTarget
  | bubbling
deriving DecidableEq, Repr

/-- The propagation-control calls a listener performs during its own
invocation (`stopImmediatePropagation` also calls `stopPropagation`). -/
inductive StopBehavior
  | noStop
  | stopProp
  | stopImmediate
deriving DecidableEq, Repr

/-- One entry of a listener list (`ThreeEventListenerEntry` with the
`capture` / `once` options already resolved the way the dispatcher resolves
them). `lid` is the listener function's identity. -/
structure ListenerEntry where
  type : EventType
  lid : Nat
  capture : Bool
  once : Bool
  stops : StopBehavior
deriving DecidableEq, Repr

/-- The per-object registry `events : Map<Object3D, ObjectEventState>`,
as an association list in `Map` insertion order with unique keys. -/
abbrev Registry := List (Obj × List ListenerEntry)

/-- `Map.get`: the entry list of an object, if it has a registry slot. -/
def lookupEntries : Registry → Obj → Option (List ListenerEntry)
  | [], _ => Option.none
  | (o', es) :: rest, o => if o' = o then Option.some es else lookupEntries rest o

/-- Entry list of an object, `[]` when it has no registry slot. -/
def entriesOf (reg : Registry) (o : Obj) : List ListenerEntry :=
  (lookupEntries reg o).getD []

/-- Registered objects, `Array.from(this.events.keys())` (insertion order). -/
def eventObjects (reg : Registry) : List Obj := reg.map Prod.fst

/-- Whether a stored entry matches `removeEventListener(o, t, listener,
options)`: same type, same listener identity, same resolved capture flag. -/
def sameKey (s : ListenerEntry) (t : EventType) (lid : Nat) (cap : Bool) : Prop :=
  s.type = t ∧ s.lid = lid ∧ s.capture = cap

instance (s : ListenerEntry) (t : EventType) (lid : Nat) (cap : Bool) :
    Decidable (sameKey s t lid cap) := by unfold sameKey; infer_instance

/-- `ThreeEventDispatcher.removeEventListener`: filter out every matching
entry; delete the object's slot when its entry list becomes empty. -/
def removeEventListener : Registry → Obj → EventType → Nat → Bool → Registry
  | [], _, _, _, _ => []
  | (o', es) :: rest, o, t, lid, cap =>
    if o' = o then
      let es' := es.filter (fun s => ¬sameKey s t lid cap)
      if es'.isEmpty then rest else (o', es') :: rest
    else (o', es) :: removeEventListener rest o t lid cap

/-- `ThreeEventDispatcher.addEventListener`: push onto an existing slot, or
append a fresh slot. -/
def addEventListener (reg : Registry) (o : Obj) (e : ListenerEntry) : Registry :=
  match lookupEntries reg o with
  | Option.some _ => reg.map (fun p => if p.1 = o then (p.1, p.2 ++ [e]) else p)
  | Option.none => reg ++ [(o, [e])]

/-- One listener invocation, in execution order: listener identity, the
`eventPhase` it observed, whether it was a global listener, and the
`target` / `currentTarget` fields of the event it received. -/
structure FireRecord where
  lid : Nat
  phase : Phase
  glob : Bool
  target : Option Obj
  currentTarget : Option Obj
deriving DecidableEq, Repr

/-- The native DOM event as the dispatcher sees it: its type, and its
pointer id when it is a `PointerEvent` (`none` models
`nativeEvent instanceof PointerEvent` being false). -/
structure NativeEvent where
  type : EventType
  pointerId : Option Nat
deriving DecidableEq, Repr

/-- Dispatcher state touched by `handleEvent`: listener registry, global
listeners, the pointer-capture map and the cached raycast hit list
`targetObjects`. -/
structure DispatchState where
  registry : Registry
  globalListeners : List ListenerEntry
  pointerCaptures : List (Nat × Obj)
  targetObjects : List Obj
deriving DecidableEq, Repr

/-- `pointerCaptures.get(pointerId)`. -/
def lookupCapture : List (Nat × Obj) → Nat → Option Obj
  | [], _ => Option.none
  | (pid', o) :: rest, pid => if pid' = pid then Option.some o else lookupCapture rest pid

/-- `pointerCaptures.delete(pointerId)`. -/
def erasePointerCapture (caps : List (Nat × Obj)) (pid : Nat) : List (Nat × Obj) :=
  caps.filter (fun p => p.1 ≠ pid)

/-- Result of a single-object dispatch step: invocation records, updated
registry, and the shared `stopPropagationRef.value` afterwards. -/
structure SingleResult where
  recs : List FireRecord
  reg : Registry
  stop : Bool
deriving DecidableEq, Repr

/-- The record of per-object listener `e` firing with the given phase,
`event.target` and `event.currentTarget`. -/
def mkRec (e : ListenerEntry) (phase : Phase) (target currentTarget : Obj) : FireRecord :=
  ⟨e.lid, phase, false, Option.some target, Option.some currentTarget⟩

/-- The `for (const listenerEntry of listenerEntries)` loop body of
`handleSingleEvent` over the filtered snapshot: fire, break on
`stopImmediatePropagation` (which also sets the shared stop flag and skips
the `once` removal), otherwise remove `once` entries and continue. -/
def fireLoop (etype : EventType) (phase : Phase) (target currentTarget : Obj) :
    List ListenerEntry → Registry → Bool → SingleResult
  | [], reg, stop => ⟨[], reg, stop⟩
  | e :: rest, reg, stop =>
    let r0 := mkRec e phase target currentTarget
    let stop1 := stop || decide (e.stops ≠ StopBehavior.noStop)
    if e.stops = StopBehavior.stopImmediate then ⟨[r0], reg, stop1⟩
    else
      let reg1 :=
        if e.once then removeEventListener reg currentTarget e.type e.lid e.capture else reg
      let r := fireLoop etype phase target currentTarget rest reg1 stop1
      ⟨r0 :: r.recs, r.reg, r.stop⟩

/-- The snapshot filter of `handleSingleEvent`: type matches, and the phase
filter (`AT_TARGET` accepts all, otherwise capture flag must equal
"is capturing phase"). -/
def phaseFilter (etype : EventType) (phase : Phase) (l : ListenerEntry) : Prop :=
  l.type = etype ∧ (phase = Phase.atTarget ∨ decide (phase = Phase.capturing) = l.capture)

instance (etype : EventType) (phase : Phase) (l : ListenerEntry) :
    Decidable (phaseFilter etype phase l) := by unfold phaseFilter; infer_instance

/-- The filtered listener snapshot taken by `handleSingleEvent`. -/
def matchingEntries (reg : Registry) (currentTarget : Obj) (etype : EventType)
    (phase : Phase) : List ListenerEntry :=
  (entriesOf reg currentTarget).filter (fun l => phaseFilter etype phase l)

/-- `ThreeEventDispatcher.handleSingleEvent(event, target, currentTarget)`. -/
def handleSingleEvent (etype : EventType) (phase : Phase) (target currentTarget : Obj)
    (reg : Registry) (stop : Bool) : SingleResult :=
  match lookupEntries reg currentTarget with
  | Option.none => ⟨[], reg, stop⟩
  | Option.some es =>
    fireLoop etype phase target currentTarget
      (es.filter (fun l => phaseFilter etype phase l)) reg stop

/-- `handledCaptureTargets?.has(x)`: `false` when the set is absent. -/
def optHas (h : Option (List Obj)) (o : Obj) : Bool :=
  match h with
  | Option.none => false
  | Option.some l => l.contains o

/-- `handledCaptureTargets?.add(x)`: no-op when the set is absent. -/
def optAdd (h : Option (List Obj)) (o : Obj) : Option (List Obj) :=
  h.map (fun l => l ++ [o])

/-- Result of one capturing/bubbling walk of `handleBubblingEvent`. -/
structure WalkResult where
  recs : List FireRecord
  reg : Registry
  stop : Bool
  handled : Option (List Obj)
  early : Bool
deriving DecidableEq, Repr

/-- One phase walk of `handleBubblingEvent`: skip already-handled nodes,
fire each node via `handleSingleEvent`, return early when the shared stop
flag is set, record the node as handled otherwise. -/
def walkPhase (etype : EventType) (phase : Phase) (target : Obj) :
    List Obj → Registry → Bool → Option (List Obj) → WalkResult
  | [], reg, stop, handled => ⟨[], reg, stop, handled, false⟩
  | ct :: rest, reg, stop, handled =>
    if optHas handled ct then walkPhase etype phase target rest reg stop handled
    else
      let r := handleSingleEvent etype phase target ct reg stop
      if r.stop then ⟨r.recs, r.reg, true, handled, true⟩
      else
        let w := walkPhase etype phase target rest r.reg r.stop (optAdd handled ct)
        ⟨r.recs ++ w.recs, w.reg, w.stop, w.handled, w.early⟩

/-- Result of `handleBubblingEvent`: records, registry, stop flag and the
two (possibly absent) shared handled sets afterwards. -/
structure BubResult where
  recs : List FireRecord
  reg : Registry
  stop : Bool
  handledCapture : Option (List Obj)
  handledBubble : Option (List Obj)
deriving DecidableEq, Repr

/-- `ThreeEventDispatcher.handleBubblingEvent(event, target, stopRef,
handledCaptureTargets?, handledBubbleTargets?)`: capturing walk from the
scene root down the ancestor chain, at-target dispatch, then bubbling walk
from the nearest ancestor up, each step aborting once the stop flag is
set. -/
def handleBubblingEvent (parents : Obj → List Obj) (etype : EventType) (target : Obj)
    (reg : Registry) (stop : Bool) (hc hb : Option (List Obj)) : BubResult :=
  let ps := parents target
  let w1 := walkPhase etype Phase.capturing target ps.reverse reg stop hc
  if w1.early then ⟨w1.recs, w1.reg, w1.stop, w1.handled, hb⟩
  else
    let s := handleSingleEvent etype Phase.atTarget target target w1.reg w1.stop
    if s.stop then ⟨w1.recs ++ s.recs, s.reg, true, w1.handled, hb⟩
    else
      let w2 := walkPhase etype Phase.bubbling target ps s.reg s.stop (optAdd hb target)
      ⟨w1.recs ++ s.recs ++ w2.recs, w2.reg, w2.stop, optAdd w1.handled target, w2.handled⟩

/-- The `for (const target of this.targetObjects)` loop of `handleEvent`,
with the shared handled sets and the `break` on a stopped propagation. -/
def targetsLoop (parents : Obj → List Obj) (etype : EventType) :
    List Obj → Registry → Bool → Option (List Obj) → Option (List Obj) → SingleResult
  | [], reg, stop, _, _ => ⟨[], reg, stop⟩
  | t :: rest, reg, stop, hc, hb =>
    let b := handleBubblingEvent parents etype t reg stop hc hb
    if b.stop then ⟨b.recs, b.reg, b.stop⟩
    else
      let r := targetsLoop parents etype rest b.reg b.stop b.handledCapture b.handledBubble
      ⟨b.recs ++ r.recs, r.reg, r.stop⟩

/-- The records produced by `handleGlobalEvents(event, phase)`: the global
listeners whose type and capture flag match, in insertion order, each
receiving `target = currentTarget = targetObjects[0]`. -/
def globalRecs (st : DispatchState) (etype : EventType) (phase : Phase) : List FireRecord :=
  (st.globalListeners.filter
      (fun l => l.type = etype ∧ decide (phase = Phase.capturing) = l.capture)).map
    (fun l => ⟨l.lid, phase, true, st.targetObjects.head?, st.targetObjects.head?⟩)

/-- The shared stop flag after `handleGlobalEvents`: set if any fired global
listener called a stop method (the loop itself never breaks). -/
def globalStop (st : DispatchState) (etype : EventType) (phase : Phase) (stop : Bool) : Bool :=
  stop ||
    (st.globalListeners.filter
        (fun l => l.type = etype ∧ decide (phase = Phase.capturing) = l.capture)).any
      (fun l => decide (l.stops ≠ StopBehavior.noStop))

/-- `ThreeEventDispatcher.handleEvent(event)`: global capturing listeners;
then either the pointer-capture route (at-target only, or — for
`pointerup` / `pointercancel` — capture removal plus full bubbling dispatch,
both returning before the global bubbling phase) or the hit-test route over
`targetObjects` followed by the global bubbling listeners. -/
def handleEvent (parents : Obj → List Obj) (st : DispatchState) (ev : NativeEvent) :
    List FireRecord × DispatchState :=
  let gc := globalRecs st ev.type Phase.capturing
  let stop1 := globalStop st ev.type Phase.capturing false
  let captureObject :=
    match ev.pointerId with
    | Option.some pid => lookupCapture st.pointerCaptures pid
    | Option.none => Option.none
  match captureObject with
  | Option.some obj =>
    if ev.type = EventType.pointerup ∨ ev.type = EventType.pointercancel then
      let caps' := erasePointerCapture st.pointerCaptures (ev.pointerId.getD 0)
      let b := handleBubblingEvent parents ev.type obj st.registry stop1
        Option.none Option.none
      (gc ++ b.recs, { st with registry := b.reg, pointerCaptures := caps' })
    else
      let s := handleSingleEvent ev.type Phase.atTarget obj obj st.registry stop1
      (gc ++ s.recs, { st with registry := s.reg })
  | Option.none =>
    let tl := targetsLoop parents ev.type st.targetObjects st.registry stop1
      (Option.some []) (Option.some [])
    let gb := globalRecs st ev.type Phase.bubbling
    (gc ++ tl.recs ++ gb, { st with registry := tl.reg })

/-- `setPointerCapture(object, pointerId)` (capture-map part). -/
def setPointerCapture (caps : List (Nat × Obj)) (pid : Nat) (o : Obj) : List (Nat × Obj) :=
  match lookupCapture caps pid with
  | Option.some _ => caps.map (fun p => if p.1 = pid then (p.1, o) else p)
  | Option.none => caps ++ [(pid, o)]

/-! ### Raycast update (`updateIntersections`) -/

/-- `[...new Set(xs)]`: duplicates removed, first occurrences kept in
order. -/
def jsSetDedup : List Obj → List Obj
  | [] => []
  | a :: rest => a :: jsSetDedup (rest.filter (fun b => b ≠ a))
termination_by l => l.length
decreasing_by
  simp only [List.length_cons]
  exact Nat.lt_succ_of_le (rest.length_filter_le _)

/-- The `targetObjects` computation of
`ThreeEventDispatcher.updateIntersections`: the raw raycast hit sequence
(the `intersection.object`s in first-hit order, `rawHits`) is filtered to
visible objects and de-duplicated:

```
this.targetIntersections = raycaster.intersectObjects(this.eventObjects)
  .filter(i => i.object.visible);
this.targetObjects = [...new Set(this.targetIntersections.map(i => i.object))];
``` -/
def updateTargets (visible : Obj → Bool) (rawHits : List Obj) : List Obj :=
  jsSetDedup (rawHits.filter visible)

/-- The contract of three.js `Raycaster.intersectObjects(objects)` (with its
`recursive = true` default since r113, and the repository depends on
`three >= 0.128`): every returned intersection's object is one of the tested
objects or a descendant of one, i.e. it or one of its ancestors is
registered. -/
def inRegisteredSubtree (parents : Obj → List Obj) (reg : Registry) (o : Obj) : Prop :=
  o ∈ eventObjects reg ∨ ∃ p ∈ parents o, p ∈ eventObjects reg

/-! ### The claimed dispatch order (specification side, claim C1)

The following definitions transcribe the claim's description of the order:
global capturing-phase listeners; per hit object in first-hit order, the
ancestors' capturing listeners from the scene root down, the object's own
listeners regardless of capture flag, the ancestors' bubbling listeners from
the nearest ancestor up — an object firing each of its capturing
(respectively bubbling) listeners at most once per native event thanks to
the handled sets shared across hit objects (an object that already fired,
including at target phase, is in the sets). -/

/-- Capturing-phase listeners of an object for an event type, insertion
order. -/
def specCaptureListeners (reg : Registry) (o : Obj) (etype : EventType) : List ListenerEntry :=
  (entriesOf reg o).filter (fun l => l.type = etype ∧ l.capture = true)

/-- Bubbling-phase listeners of an object for an event type, insertion
order. -/
def specBubbleListeners (reg : Registry) (o : Obj) (etype : EventType) : List ListenerEntry :=
  (entriesOf reg o).filter (fun l => l.type = etype ∧ l.capture = false)

/-- At-target listeners: every listener of the object for the type,
regardless of capture flag, insertion order. -/
def specTargetListeners (reg : Registry) (o : Obj) (etype : EventType) : List ListenerEntry :=
  (entriesOf reg o).filter (fun l => l.type = etype)

/-- The phase-appropriate listener selection of the claim. -/
def specPhaseListeners (reg : Registry) (o : Obj) (etype : EventType) : Phase → List ListenerEntry
  | Phase.capturing => specCaptureListeners reg o etype
  | Phase.bubbling => specBubbleListeners reg o etype
  | Phase.atTarget => specTargetListeners reg o etype

/-- One ancestor walk of the claimed order: fire the phase listeners of each
not-yet-handled node in the given order, marking nodes handled. -/
def specWalk (reg : Registry) (etype : EventType) (phase : Phase) (target : Obj) :
    List Obj → List Obj → List FireRecord × List Obj
  | [], handled => ([], handled)
  | o :: rest, handled =>
    if o ∈ handled then specWalk reg etype phase target rest handled
    else
      let recs := (specPhaseListeners reg o etype phase).map (fun e => mkRec e phase target o)
      let w := specWalk reg etype phase target rest (handled ++ [o])
      (recs ++ w.1, w.2)

/-- The claimed per-hit-object segment: root-down capturing walk, at-target
listeners, nearest-up bubbling walk; the hit object itself joins both
handled sets. -/
def specPerTarget (parents : Obj → List Obj) (reg : Registry) (etype : EventType)
    (t : Obj) (hc hb : List Obj) : List FireRecord × List Obj × List Obj :=
  let c := specWalk reg etype Phase.capturing t (parents t).reverse hc
  let tg := (specTargetListeners reg t etype).map (fun e => mkRec e Phase.atTarget t t)
  let b := specWalk reg etype Phase.bubbling t (parents t) (hb ++ [t])
  (c.1 ++ tg ++ b.1, c.2 ++ [t], b.2)

/-- The claimed order over the hit objects in first-hit order, threading the
shared handled sets. -/
def specTargetsFold (parents : Obj → List Obj) (reg : Registry) (etype : EventType) :
    List Obj → List Obj → List Obj → List FireRecord
  | [], _, _ => []
  | t :: rest, hc, hb =>
    let p := specPerTarget parents reg etype t hc hb
    p.1 ++ specTargetsFold parents reg etype rest p.2.1 p.2.2

/-- The full claimed trace for one native event without active pointer
capture: global capturing listeners, the per-hit-object segments, global
bubbling listeners. -/
def specTrace (parents : Obj → List Obj) (st : DispatchState) (etype : EventType) :
    List FireRecord :=
  globalRecs st etype Phase.capturing
    ++ specTargetsFold parents st.registry etype st.targetObjects [] []
    ++ globalRecs st etype Phase.bubbling

/-- A listener that neither stops propagation nor is a `once` listener: its
invocation leaves the dispatch state untouched. -/
def pureEntry (e : ListenerEntry) : Prop :=
  e.stops = StopBehavior.noStop ∧ e.once = false

instance (e : ListenerEntry) : Decidable (pureEntry e) := by
  unfold pureEntry; infer_instance

/-- Every per-object listener in the registry is pure. -/
def pureRegistry (reg : Registry) : Prop :=
  ∀ p ∈ reg, ∀ e ∈ p.2, pureEntry e

instance (reg : Registry) : Decidable (pureRegistry reg) := by
  unfold pureRegistry; infer_instance

/-- No global listener stops propagation. -/
def pureGlobals (st : DispatchState) : Prop :=
  ∀ e ∈ st.globalListeners, e.stops = StopBehavior.noStop

instance (st : DispatchState) : Decidable (pureGlobals st) := by
  unfold pureGlobals; infer_instance

end Dispatch

/-! # Theorems -/

/-! ## C3: inverse zoom deltas -/

namespace ZoomDolly

theorem zoomDeltaMultiplier_pos (d : ℚ) : 0 < zoomDeltaMultiplier d := by
  unfold zoomDeltaMultiplier
  split
  · next h => positivity
  · next h => linarith [not_lt.mp h]

theorem zoomDeltaMultiplier_inv (d : ℚ) :
    zoomDeltaMultiplier d * zoomDeltaMultiplier (-d) = 1 := by
  unfold zoomDeltaMultiplier
  rcases lt_trichotomy d 0 with h | h | h
  · rw [if_neg (by linarith), if_pos (by linarith)]
    have h1 : (1 : ℚ) - d ≠ 0 := by linarith
    have h2 : (1 : ℚ) + -d = 1 - d := by ring
    rw [h2]
    field_simp
  · subst h; norm_num
  · rw [if_pos h, if_neg (by linarith)]
    have h1 : (1 : ℚ) + d ≠ 0 := by linarith
    have h2 : (1 : ℚ) - -d = 1 + d := by ring
    rw [h2]
    field_simp

theorem zoomStep_eq (s : ZoomState) (d : ℚ) (h : zoomClampFree s d) :
    zoomStep s d = { s with
      startZoom := s.startZoom * zoomDeltaMultiplier d
      cameraZoom := s.cameraZoom * (s.startZoom * zoomDeltaMultiplier d / s.startZoom) } := by
  unfold zoomClampFree at h
  simp only [zoomStep, h]

/-- C3: starting from zoom `z > 0`, applying the zoom step with delta `d` and
then with delta `-d`, with neither step triggering the min/max zoom clamp,
restores the camera zoom to exactly `z` (exactly, in the rational model —
"within floating-point tolerance" in IEEE arithmetic); the multipliers used
for the two deltas, `1/(1+d)` and `1+d`, are exact multiplicative inverses,
and the camera zoom stays strictly positive after each of the two steps. -/
theorem zoom_inverse_deltas_restore (s : ZoomState) (z d : ℚ)
    (hz : 0 < z) (hs : s.startZoom = z) (hc : s.cameraZoom = z)
    (h1 : zoomClampFree s d) (h2 : zoomClampFree (zoomStep s d) (-d)) :
    (zoomStep (zoomStep s d) (-d)).cameraZoom = z
    ∧ zoomDeltaMultiplier d * zoomDeltaMultiplier (-d) = 1
    ∧ 0 < (zoomStep s d).cameraZoom
    ∧ 0 < (zoomStep (zoomStep s d) (-d)).cameraZoom := by
  have hm1 := zoomDeltaMultiplier_pos d
  have hm2 := zoomDeltaMultiplier_pos (-d)
  have hinv := zoomDeltaMultiplier_inv d
  have hzne : z ≠ 0 := ne_of_gt hz
  have e1 := zoomStep_eq s d h1
  have e2 := zoomStep_eq (zoomStep s d) (-d) h2
  rw [e1] at e2 ⊢
  simp only [hs, hc] at e2 ⊢
  rw [e2]
  have hd1 : z * zoomDeltaMultiplier d / z = zoomDeltaMultiplier d := by
    field_simp
  simp only [hd1]
  have hzm : z * zoomDeltaMultiplier d ≠ 0 := by positivity
  have hd2 : z * zoomDeltaMultiplier d * zoomDeltaMultiplier (-d) / (z * zoomDeltaMultiplier d)
      = zoomDeltaMultiplier (-d) := by
    field_simp
  simp only [hd2]
  refine ⟨?_, hinv, ?_, ?_⟩
  · calc z * zoomDeltaMultiplier d * zoomDeltaMultiplier (-d)
        = z * (zoomDeltaMultiplier d * zoomDeltaMultiplier (-d)) := by ring
      _ = z := by rw [hinv]; ring
  · positivity
  · positivity

theorem zoom_inverse_deltas_restore_witness :
    (zoomStep (zoomStep ⟨2, 2, Option.some 0, Option.some 100⟩ 1) (-1)).cameraZoom = 2
    ∧ 0 < (zoomStep ⟨2, 2, Option.some 0, Option.some 100⟩ 1).cameraZoom := by
  have h := zoom_inverse_deltas_restore ⟨2, 2, Option.some 0, Option.some 100⟩ 2 1
    (by norm_num) rfl rfl
    (by norm_num [zoomClampFree, mathClamp, zoomDeltaMultiplier])
    (by norm_num [zoomClampFree, zoomStep, mathClamp, zoomDeltaMultiplier])
  exact ⟨h.1, h.2.2.1⟩

/-! ## C4: which clamp ratio corrects `zoomAndDolly` -/

/-- C4 counterexample: with `startZoom = 2`, `relCoef = 8`, `maxZoom = 2`,
`minDistance = 5` and `delta = -1`, both clamps trigger
(`zoomClampRatio = 2`, `dollyClampRatio = 5/4`); the dolly ratio is the one
closer to `1`, yet neither the resulting zoom nor the resulting
relative-target coordinate equals the result of applying the dolly ratio —
the code applies the zoom ratio, the one farther from `1`. -/
theorem zoomAndDolly_uses_closer_ratio_cex :
    zadClampTriggered ⟨2, 8, Option.none, Option.some 2, 5, Option.none⟩ (-1)
    ∧ |1 - zadDollyClampR ⟨2, 8, Option.none, Option.some 2, 5, Option.none⟩ (-1)|
        < |1 - zadZoomClampR ⟨2, 8, Option.none, Option.some 2, 5, Option.none⟩ (-1)|
    ∧ (zoomAndDolly ⟨2, 8, Option.none, Option.some 2, 5, Option.none⟩ (-1)).state.startZoom
        ≠ (2 * zoomDeltaMultiplier (-1))
            / zadDollyClampR ⟨2, 8, Option.none, Option.some 2, 5, Option.none⟩ (-1)
    ∧ (zoomAndDolly ⟨2, 8, Option.none, Option.some 2, 5, Option.none⟩ (-1)).state.relCoef
        ≠ (8 * dollyDeltaMultiplier (-1))
            * zadDollyClampR ⟨2, 8, Option.none, Option.some 2, 5, Option.none⟩ (-1) := by
  have e1 : zadZoomClampR ⟨2, 8, Option.none, Option.some 2, 5, Option.none⟩ (-1) = 2 := by
    norm_num [zadZoomClampR, clampCallbackValue, belowMin, aboveMax, zoomDeltaMultiplier]
  have hd : dollyDeltaMultiplier (-1 : ℚ) = 1 / 2 := by
    norm_num [dollyDeltaMultiplier]
  have hclamp : clampLengthCoef (4 : ℚ) 5 Option.none = Option.some 5 := by
    rw [clampLengthCoef]
    norm_num
  have e2 : zadDollyClampR ⟨2, 8, Option.none, Option.some 2, 5, Option.none⟩ (-1) = 5 / 4 := by
    rw [zadDollyClampR]
    norm_num [hd, hclamp]
  have ha : |(1 : ℚ) / 4| = 1 / 4 := abs_of_pos (by norm_num)
  have e3 : (zoomAndDolly ⟨2, 8, Option.none, Option.some 2, 5, Option.none⟩ (-1)).state
      = ⟨2, 8, Option.none, Option.some 2, 5, Option.none⟩ := by
    simp only [zoomAndDolly, e1, e2]
    norm_num [zoomDeltaMultiplier, dollyDeltaMultiplier, ha]
  refine ⟨Or.inl ?_, ?_, ?_, ?_⟩
  · norm_num [clampCallbackValue, belowMin, aboveMax, zoomDeltaMultiplier]
  · rw [e1, e2]; norm_num [ha]
  · rw [e2, e3]; norm_num [zoomDeltaMultiplier]
  · rw [e2, e3]; norm_num [dollyDeltaMultiplier]

/-- C4 (amended): in `zoomAndDolly`, whenever at least one of the zoom clamp
and the distance clamp is triggered in a frame, the clamp ratio farther from
`1` (the more restrictive of the zoom clamp ratio and the dolly clamp ratio)
is the one that determines the correction, and that single ratio is applied
to both the zoom value (`newZoom / ratio`) and the relative-target
coordinate (`newRelativeTarget * ratio`). -/
theorem zoomAndDolly_uses_stricter_ratio (s : ZadState) (delta : ℚ)
    (_htrig : zadClampTriggered s delta) :
    |1 - zadChosenR s delta|
      = max |1 - zadZoomClampR s delta| |1 - zadDollyClampR s delta|
    ∧ (zoomAndDolly s delta).state.startZoom
        = (s.startZoom * zoomDeltaMultiplier delta) / zadChosenR s delta
    ∧ (zoomAndDolly s delta).state.relCoef
        = (s.relCoef * dollyDeltaMultiplier delta) * zadChosenR s delta := by
  by_cases h : |1 - zadZoomClampR s delta| > |1 - zadDollyClampR s delta|
  · refine ⟨?_, ?_, ?_⟩
    · rw [zadChosenR, if_pos h]
      exact (max_eq_left h.le).symm
    · simp only [zoomAndDolly, zadChosenR, if_pos h]
    · simp only [zoomAndDolly, zadChosenR, if_pos h]
  · refine ⟨?_, ?_, ?_⟩
    · rw [zadChosenR, if_neg h]
      exact (max_eq_right (not_lt.mp h)).symm
    · simp only [zoomAndDolly, zadChosenR, if_neg h]
    · simp only [zoomAndDolly, zadChosenR, if_neg h]

theorem zoomAndDolly_uses_stricter_ratio_witness :
    |1 - zadChosenR ⟨2, 8, Option.none, Option.some 2, 5, Option.none⟩ (-1)|
      = max |1 - zadZoomClampR ⟨2, 8, Option.none, Option.some 2, 5, Option.none⟩ (-1)|
          |1 - zadDollyClampR ⟨2, 8, Option.none, Option.some 2, 5, Option.none⟩ (-1)|
    ∧ (zoomAndDolly ⟨2, 8, Option.none, Option.some 2, 5, Option.none⟩ (-1)).state.startZoom
        = (2 * zoomDeltaMultiplier (-1))
            / zadChosenR ⟨2, 8, Option.none, Option.some 2, 5, Option.none⟩ (-1) :=
  have h := zoomAndDolly_uses_stricter_ratio ⟨2, 8, Option.none, Option.some 2, 5, Option.none⟩
    (-1) (Or.inl (by norm_num [clampCallbackValue, belowMin, aboveMax, zoomDeltaMultiplier]))
  ⟨h.1, h.2.1⟩

end ZoomDolly

/-! ## C5: wheel delta scaling and inversion -/

namespace Wheel

/-- C5 counterexample: with the `inverse` option unset (its default) and
`deltaY = 1`, the claimed delivered delta `sign(deltaY)·log(1+|deltaY|)/40`
(`= log 2 / 40 > 0`) differs from what `handleWheel` actually passes to the
change listener (`-log 2 / 40`): the code negates the logarithmic delta
precisely when `inverse` is NOT set. -/
theorem handleWheel_sign_cex :
    claimedWheelDelta ⟨false⟩ ⟨1, 0, 0⟩ ≠ (handleWheel ⟨false⟩ ⟨1, 0, 0⟩ ⟨0, 0, 1, 1⟩).1 := by
  have hlog : 0 < Real.log 2 := Real.log_pos one_lt_two
  have hsign : Real.sign (1 : ℝ) = 1 := Real.sign_of_pos one_pos
  simp only [claimedWheelDelta, handleWheel, hsign, abs_one, if_neg Bool.false_ne_true,
    Bool.false_eq_true, if_false, one_mul]
  norm_num
  intro h
  linarith

/-- C5 (amended): for every wheel event, `handleWheel` delivers to its change
listener the scalar delta `sign(deltaY) * log(1 + |deltaY|) / K` with the
fixed constant `K = 40`, negated exactly when the `inverse` configuration
option is NOT set (the default), together with a synthetic single active
pointer whose `coords` and `startCoords` are the event's screen coordinates
converted to normalized device coordinates and whose `delta` is the zero
vector. -/
theorem handleWheel_delta (o : WheelOpts) (ev : WheelEv) (dom : DomRect) :
    (handleWheel o ev dom).1
      = (if o.inverse then 1 else -1)
          * (Real.sign ev.deltaY * (Real.log (1 + |ev.deltaY|) / 40))
    ∧ (handleWheel o ev dom).2.coords = calculatePointerCoords ev dom
    ∧ (handleWheel o ev dom).2.startCoords = calculatePointerCoords ev dom
    ∧ (handleWheel o ev dom).2.delta.x = 0
    ∧ (handleWheel o ev dom).2.delta.y = 0 := by
  cases hinv : o.inverse <;> simp [handleWheel, hinv, one_mul]

end Wheel

/-! ## C8: exact-mode truck is a soft no-op when the pan plane is missed -/

namespace Truck

/-- C8: for every call to the truck fragment's exact-mode pointer handler in
which the ray through the current pointer coordinates fails to produce an
intersection (`calculatePointerTarget` returns `null`), the call is a soft
no-op: the whole state — in particular the camera position, the target
point and the stored start pointer-target — is returned unchanged, and (the
model being a total function) no error is surfaced. -/
theorem handlePointerInputExact_noop_on_miss (sq : ℚ → ℚ)
    (rayFromCamera : Geom.Vec2Q → Geom.CameraQ → Geom.RayQ)
    (activePointers : List ActivePointerQ) (s : TruckState)
    (hmiss : Geom.calculatePointerTarget sq ⟨s.startCameraKind, s.startCameraPos⟩
      s.startPlane
      (rayFromCamera (getCoordsFromActivePointers activePointers)
        ⟨s.startCameraKind, s.startCameraPos⟩)
      s.opts.maxDistance = Option.none) :
    handlePointerInputExact sq rayFromCamera activePointers s = s
    ∧ (handlePointerInputExact sq rayFromCamera activePointers s).cameraPos = s.cameraPos
    ∧ (handlePointerInputExact sq rayFromCamera activePointers s).target = s.target
    ∧ (handlePointerInputExact sq rayFromCamera activePointers s).startPointerTarget
        = s.startPointerTarget := by
  have h : handlePointerInputExact sq rayFromCamera activePointers s = s := by
    simp only [handlePointerInputExact, hmiss, Option.elim]
  exact ⟨h, by rw [h], by rw [h], by rw [h]⟩

theorem handlePointerInputExact_noop_on_miss_witness :
    Geom.calculatePointerTarget (fun _ => 0)
      ⟨Geom.CameraKind.perspective, ⟨0, 0, 0⟩⟩ ⟨⟨0, 1, 0⟩, -5⟩ ⟨⟨10, 0, 0⟩, ⟨0, 0, 1⟩⟩ 1
      = Option.none
    ∧ handlePointerInputExact (fun _ => 0) (fun _ _ => ⟨⟨10, 0, 0⟩, ⟨0, 0, 1⟩⟩)
        [⟨⟨0, 0⟩, ⟨0, 0⟩, ⟨0, 0⟩, PointerKind.pointer⟩]
        ⟨⟨true, SpeedOpt.scalar 1, 1⟩, Geom.CameraKind.perspective, ⟨0, 0, 0⟩,
          ⟨⟨0, 1, 0⟩, -5⟩, ⟨7, 7, 7⟩, ⟨1, 2, 3⟩, ⟨4, 5, 6⟩⟩
      = ⟨⟨true, SpeedOpt.scalar 1, 1⟩, Geom.CameraKind.perspective, ⟨0, 0, 0⟩,
          ⟨⟨0, 1, 0⟩, -5⟩, ⟨7, 7, 7⟩, ⟨1, 2, 3⟩, ⟨4, 5, 6⟩⟩ := by
  have hplane : Geom.rayIntersectPlane ⟨⟨10, 0, 0⟩, ⟨0, 0, 1⟩⟩ ⟨⟨0, 1, 0⟩, -5⟩
      = Option.none := by
    rw [Geom.rayIntersectPlane, Geom.rayDistanceToPlane]
    norm_num [Geom.vdot, Geom.planeDistanceToPoint]
  have hsphere : Geom.rayIntersectSphere (fun _ => 0) ⟨⟨10, 0, 0⟩, ⟨0, 0, 1⟩⟩
      ⟨⟨0, 0, 0⟩, 1⟩ = Option.none := by
    rw [Geom.rayIntersectSphere]
    norm_num [Geom.vdot, Geom.vsub]
  have hmiss : Geom.calculatePointerTarget (fun _ => 0)
      ⟨Geom.CameraKind.perspective, ⟨0, 0, 0⟩⟩ ⟨⟨0, 1, 0⟩, -5⟩ ⟨⟨10, 0, 0⟩, ⟨0, 0, 1⟩⟩ 1
      = Option.none := by
    rw [Geom.calculatePointerTarget]
    simp [hplane, hsphere, Option.orElse]
  exact ⟨hmiss,
    (handlePointerInputExact_noop_on_miss (fun _ => 0) (fun _ _ => ⟨⟨10, 0, 0⟩, ⟨0, 0, 1⟩⟩)
      [⟨⟨0, 0⟩, ⟨0, 0⟩, ⟨0, 0⟩, PointerKind.pointer⟩]
      ⟨⟨true, SpeedOpt.scalar 1, 1⟩, Geom.CameraKind.perspective, ⟨0, 0, 0⟩,
        ⟨⟨0, 1, 0⟩, -5⟩, ⟨7, 7, 7⟩, ⟨1, 2, 3⟩, ⟨4, 5, 6⟩⟩ hmiss).1⟩

end Truck

/-! ## C7: horizontal angle wraparound -/

namespace RotB

theorem jsfmod_nonneg_bounds (x y : ℝ) (hy : 0 < y) (hx : 0 ≤ x) :
    0 ≤ jsfmod x y ∧ jsfmod x y < y := by
  have ht : 0 ≤ x / y := div_nonneg hx hy.le
  have hyne : y ≠ 0 := ne_of_gt hy
  have hkey : jsfmod x y = y * Int.fract (x / y) := by
    rw [jsfmod, jsTrunc, if_pos ht, Int.fract, mul_sub]
    congr 1
    field_simp
  constructor
  · rw [hkey]
    exact mul_nonneg hy.le (Int.fract_nonneg _)
  · rw [hkey]
    calc y * Int.fract (x / y) < y * 1 :=
      (mul_lt_mul_left hy).mpr (Int.fract_lt_one _)
    _ = y := mul_one y

theorem jsfmod_neg_bounds (x y : ℝ) (hy : 0 < y) (hx : x < 0) :
    -y < jsfmod x y ∧ jsfmod x y ≤ 0 := by
  have ht : ¬(0 ≤ x / y) := not_le.mpr (div_neg_of_neg_of_pos hx hy)
  have hyne : y ≠ 0 := ne_of_gt hy
  have hkey : jsfmod x y = x - y * (⌈x / y⌉ : ℝ) := by
    rw [jsfmod, jsTrunc, if_neg ht]
  have hc1 : (⌈x / y⌉ : ℝ) < x / y + 1 := Int.ceil_lt_add_one _
  have hc2 : x / y ≤ (⌈x / y⌉ : ℝ) := Int.le_ceil _
  have hxy : y * (x / y) = x := by field_simp
  constructor
  · rw [hkey]
    nlinarith
  · rw [hkey]
    nlinarith

/-- C7: for a fixed-up rotation fragment whose horizontal min/max limits are
the defaults (`-Infinity` / `Infinity`, i.e. no explicit restriction), after
a rotation step — every rotation path stores its horizontal angle through
`rotateTo` — the stored horizontal angle lies in `[-π, π]`: an azimuth
driven past `+π` or `-π` is wrapped around into that interval by the
modulo step instead of growing unbounded. -/
theorem rotateTo_wraps_horizontal (s : Frag) (v h : ℝ)
    (hmin : s.opts.minHorizontalAngle = Option.none)
    (hmax : s.opts.maxHorizontalAngle = Option.none) :
    |(rotateTo s v h).horizontalAngle| ≤ Real.pi := by
  have hpi := Real.pi_pos
  have h2pi : 0 < Real.pi * 2 := by linarith
  have hclamped : customHorizontalClamp s.opts.minHorizontalAngle s.opts.maxHorizontalAngle h
      = h := by
    rw [hmin, hmax]
    simp [customHorizontalClamp]
  simp only [rotateTo, hclamped]
  by_cases h1 : h > Real.pi
  · rw [if_pos h1]
    have hb := jsfmod_nonneg_bounds (h + Real.pi) (Real.pi * 2) h2pi (by linarith)
    rw [abs_le]
    constructor <;> linarith [hb.1, hb.2]
  · rw [if_neg h1]
    by_cases h2 : h < -Real.pi
    · rw [if_pos h2]
      have hb := jsfmod_neg_bounds (h - Real.pi) (Real.pi * 2) h2pi (by linarith)
      rw [abs_le]
      constructor <;> linarith [hb.1, hb.2]
    · rw [if_neg h2, abs_le]
      exact ⟨le_of_not_lt h2, le_of_not_lt h1⟩

theorem rotateTo_wraps_horizontal_witness :
    |(rotateTo ⟨defaultOptions, 0, 0, true⟩ 0 10).horizontalAngle| ≤ Real.pi :=
  rotateTo_wraps_horizontal ⟨defaultOptions, 0, 0, true⟩ 0 10 rfl rfl

end RotB

/-! ## C6: vertical angle stays off the poles -/

theorem absMaxVerticalAngle_pos : 0 < absMaxVerticalAngle := by
  rw [absMaxVerticalAngle]
  linarith [Real.pi_gt_d6]

theorem absMaxVerticalAngle_lt_two : absMaxVerticalAngle < 2 := by
  rw [absMaxVerticalAngle]
  linarith [Real.pi_lt_d2]

namespace RotA

theorem clamp_abs_le (lo hi x : ℝ) (h1 : -absMaxVerticalAngle ≤ lo)
    (h2 : hi ≤ absMaxVerticalAngle) (h3 : lo ≤ hi) :
    |max lo (min hi x)| ≤ absMaxVerticalAngle := by
  rw [abs_le]
  constructor
  · linarith [le_max_left lo (min hi x)]
  · have h4 : max lo (min hi x) ≤ hi := max_le h3 (min_le_left _ _)
    linarith

theorem rotateBy_good (s : Frag) (dv dh : ℝ) (hg : goodFrag s)
    (ho : orderedVerticalBounds s) : goodFrag (rotateBy s dv dh) := by
  obtain ⟨h1, h2, _⟩ := hg
  exact ⟨h1, h2, clamp_abs_le _ _ _ h1 h2 ho⟩

theorem rotateTo_good (s : Frag) (v h : ℝ) (hg : goodFrag s)
    (ho : orderedVerticalBounds s) : goodFrag (rotateTo s v h) := by
  obtain ⟨h1, h2, _⟩ := hg
  exact ⟨h1, h2, clamp_abs_le _ _ _ h1 h2 ho⟩

theorem step_good (s : Frag) (op : Op) (hg : goodFrag s)
    (ho : orderedVerticalBounds s) : goodFrag (step s op) := by
  cases op with
  | updateOptions p =>
    refine ⟨le_max_right _ _, min_le_right _ _, hg.2.2⟩
  | handlePointerInput d k a =>
    rw [step, handlePointerInput]
    split
    · exact hg
    · exact rotateBy_good s _ _ hg ho
  | rotateBy dv dh => exact rotateBy_good s dv dh hg ho
  | rotateTo v h => exact rotateTo_good s v h hg ho
  | setVerticalAngle a => exact rotateTo_good s a s.horizontalAngle hg ho
  | setHorizontalAngle a => exact rotateTo_good s s.verticalAngle a hg ho

theorem applyOps_good : ∀ (ops : List Op) (s : Frag),
    goodFrag s → validRun s ops → goodFrag (applyOps s ops)
  | [], _s, hg, _ => hg
  | op :: rest, s, hg, hv =>
    applyOps_good rest (step s op) (step_good s op hg hv.1) hv.2

theorem initFrag_good (orbit : Bool) : goodFrag (initFrag orbit) := by
  refine ⟨le_refl _, le_refl _, ?_⟩
  have h0 : |(0 : ℝ)| = 0 := abs_zero
  rw [initFrag]
  simp only [h0]
  exact absMaxVerticalAngle_pos.le

/-- C6 counterexample: `updateOptions({ minVerticalAngle: 2 })` followed by
`rotateTo(0, 0)` stores a vertical angle of `2 > π/2 - 1e-8`: the caps only
bound `minVerticalAngle` from below and `maxVerticalAngle` from above, so a
configured minimum beyond the pole pushes the stored angle past it. -/
theorem verticalAngle_bound_cex :
    (applyOps (initFrag true)
      [Op.updateOptions { minVerticalAngle := Option.some 2 },
        Op.rotateTo 0 0]).verticalAngle = 2
    ∧ ¬ |(applyOps (initFrag true)
      [Op.updateOptions { minVerticalAngle := Option.some 2 },
        Op.rotateTo 0 0]).verticalAngle| ≤ absMaxVerticalAngle := by
  have hA := absMaxVerticalAngle_pos
  have hA2 := absMaxVerticalAngle_lt_two
  have e1 : (applyOps (initFrag true)
      [Op.updateOptions { minVerticalAngle := Option.some 2 },
        Op.rotateTo 0 0]).verticalAngle = 2 := by
    rw [applyOps]
    simp only [List.foldl, step, updateOptions, initFrag, defaultOptions, rotateTo, clampOpt]
    have hma : max (2 : ℝ) (-absMaxVerticalAngle) = 2 := max_eq_left (by linarith)
    have hmb : min absMaxVerticalAngle absMaxVerticalAngle = absMaxVerticalAngle := min_self _
    have hmc : min absMaxVerticalAngle (0 : ℝ) = 0 := min_eq_right hA.le
    simp only [Option.getD, hma, hmb, hmc]
    exact max_eq_left (by norm_num)
  refine ⟨e1, ?_⟩
  rw [e1, not_le]
  calc absMaxVerticalAngle < 2 := hA2
  _ ≤ |(2 : ℝ)| := le_abs_self 2

/-- C6 (amended): for every fixed-up rotation fragment, after any sequence
of `updateOptions` (arbitrary min/max vertical angle values),
`handlePointerInput`, `rotateBy`, `rotateTo`, `setVerticalAngle` and
`setHorizontalAngle` operations in which the capped vertical bounds stay
ordered (`minVerticalAngle ≤ maxVerticalAngle` at every step — which the
code itself does not enforce: `updateOptions` caps the configured bounds on
one side each, to `max(min, -(π/2 - 1e-8))` and `min(max, π/2 - 1e-8)`), the
stored vertical angle satisfies `|verticalAngle| ≤ π/2 - 1e-8`, so no such
configuration can push the vertical angle to or past the poles. -/
theorem verticalAngle_bounded (orbit : Bool) (ops : List Op)
    (hvalid : validRun (initFrag orbit) ops) :
    |(applyOps (initFrag orbit) ops).verticalAngle| ≤ absMaxVerticalAngle :=
  (applyOps_good ops (initFrag orbit) (initFrag_good orbit) hvalid).2.2

theorem verticalAngle_bounded_witness :
    validRun (initFrag true)
      [Op.updateOptions { minVerticalAngle := Option.some (-1), maxVerticalAngle := Option.some 1 },
        Op.rotateTo 2 0]
    ∧ |(applyOps (initFrag true)
        [Op.updateOptions
            { minVerticalAngle := Option.some (-1), maxVerticalAngle := Option.some 1 },
          Op.rotateTo 2 0]).verticalAngle| ≤ absMaxVerticalAngle := by
  have hA := absMaxVerticalAngle_pos
  have hvalid : validRun (initFrag true)
      [Op.updateOptions { minVerticalAngle := Option.some (-1), maxVerticalAngle := Option.some 1 },
        Op.rotateTo 2 0] := by
    simp only [validRun, step, updateOptions, initFrag, defaultOptions, rotateTo,
      orderedVerticalBounds, Option.getD]
    refine ⟨by linarith, ?_, ?_⟩ <;>
      exact max_le (le_min (by linarith) (by linarith)) (le_min (by linarith) (by linarith))
  exact ⟨hvalid, verticalAngle_bounded true _ hvalid⟩

end RotA

/-! ## Dispatcher helper lemmas -/

namespace Dispatch

theorem lookupEntries_mem {reg : Registry} {o : Obj} {es : List ListenerEntry}
    (h : lookupEntries reg o = Option.some es) : (o, es) ∈ reg := by
  induction reg with
  | nil => simp [lookupEntries] at h
  | cons p rest ih =>
    obtain ⟨o', es'⟩ := p
    rw [lookupEntries] at h
    by_cases ho : o' = o
    · rw [if_pos ho] at h
      obtain rfl := ho
      obtain rfl : es' = es := by injection h
      exact List.mem_cons_self _ _
    · rw [if_neg ho] at h
      exact List.mem_cons_of_mem _ (ih h)

theorem pureRegistry_entries {reg : Registry} (h : pureRegistry reg) (o : Obj) :
    ∀ e ∈ entriesOf reg o, pureEntry e := by
  rw [entriesOf]
  cases hl : lookupEntries reg o with
  | none => simp
  | some es =>
    simpa using h (o, es) (lookupEntries_mem hl)

theorem entriesOf_eq_of_lookup {reg : Registry} {o : Obj} {es : List ListenerEntry}
    (h : lookupEntries reg o = Option.some es) : entriesOf reg o = es := by
  rw [entriesOf, h, Option.getD]

theorem fireLoop_pure (etype : EventType) (phase : Phase) (target ct : Obj) :
    ∀ (snap : List ListenerEntry) (reg : Registry) (stop : Bool),
      (∀ e ∈ snap, pureEntry e) →
      fireLoop etype phase target ct snap reg stop
        = ⟨snap.map (fun e => mkRec e phase target ct), reg, stop⟩
  | [], reg, stop, _ => rfl
  | e :: rest, reg, stop, hp => by
    obtain ⟨hs, ho⟩ := hp e (List.mem_cons_self _ _)
    have ih := fireLoop_pure etype phase target ct rest reg stop
      (fun e' he' => hp e' (List.mem_cons_of_mem _ he'))
    rw [fireLoop]
    simp [hs, ho, ih]

theorem fireLoop_recs_shape (etype : EventType) (phase : Phase) (target ct : Obj) :
    ∀ (snap : List ListenerEntry) (reg : Registry) (stop : Bool) (r : FireRecord),
      r ∈ (fireLoop etype phase target ct snap reg stop).recs →
      ∃ e ∈ snap, r = mkRec e phase target ct
  | [], reg, stop, r, hr => by simp [fireLoop] at hr
  | e :: rest, reg, stop, r, hr => by
    rw [fireLoop] at hr
    by_cases hs : e.stops = StopBehavior.stopImmediate
    · rw [if_pos hs] at hr
      simp only [List.mem_singleton] at hr
      exact ⟨e, List.mem_cons_self _ _, hr⟩
    · rw [if_neg hs] at hr
      simp only [List.mem_cons] at hr
      rcases hr with rfl | hr
      · exact ⟨e, List.mem_cons_self _ _, rfl⟩
      · obtain ⟨e', he', hre⟩ := fireLoop_recs_shape etype phase target ct rest _ _ r hr
        exact ⟨e', List.mem_cons_of_mem _ he', hre⟩

theorem handleSingleEvent_pure (etype : EventType) (phase : Phase) (target ct : Obj)
    (reg : Registry) (stop : Bool) (hp : pureRegistry reg) :
    handleSingleEvent etype phase target ct reg stop
      = ⟨(matchingEntries reg ct etype phase).map (fun e => mkRec e phase target ct),
          reg, stop⟩ := by
  rw [handleSingleEvent]
  cases hl : lookupEntries reg ct with
  | none =>
    rw [matchingEntries, entriesOf, hl]
    rfl
  | some es =>
    rw [matchingEntries, entriesOf_eq_of_lookup hl]
    exact fireLoop_pure etype phase target ct _ reg stop
      (fun e he => pureRegistry_entries hp ct e
        (by rw [entriesOf_eq_of_lookup hl]; exact List.mem_of_mem_filter he))

theorem handleSingleEvent_recs_shape (etype : EventType) (phase : Phase) (target ct : Obj)
    (reg : Registry) (stop : Bool) (r : FireRecord)
    (hr : r ∈ (handleSingleEvent etype phase target ct reg stop).recs) :
    ∃ e, r = mkRec e phase target ct := by
  rw [handleSingleEvent] at hr
  cases hl : lookupEntries reg ct with
  | none => rw [hl] at hr; simp at hr
  | some es =>
    rw [hl] at hr
    obtain ⟨e, _, hre⟩ := fireLoop_recs_shape etype phase target ct _ reg stop r hr
    exact ⟨e, hre⟩

theorem matchingEntries_eq_spec (reg : Registry) (o : Obj) (etype : EventType) :
    ∀ phase : Phase, matchingEntries reg o etype phase = specPhaseListeners reg o etype phase := by
  intro phase
  cases phase with
  | capturing =>
    rw [matchingEntries, specPhaseListeners, specCaptureListeners]
    apply List.filter_congr
    intro l _
    refine decide_eq_decide.mpr ?_
    rw [phaseFilter]
    constructor
    · rintro ⟨h1, h2 | h2⟩
      · exact absurd h2 (by intro h; cases h)
      · refine ⟨h1, ?_⟩
        have h3 : (true : Bool) = l.capture := by simpa using h2
        exact h3.symm
    · rintro ⟨h1, h2⟩
      exact ⟨h1, Or.inr (by simp [h2])⟩
  | atTarget =>
    rw [matchingEntries, specPhaseListeners, specTargetListeners]
    apply List.filter_congr
    intro l _
    refine decide_eq_decide.mpr ?_
    rw [phaseFilter]
    constructor
    · rintro ⟨h1, _⟩
      exact h1
    · intro h1
      exact ⟨h1, Or.inl rfl⟩
  | bubbling =>
    rw [matchingEntries, specPhaseListeners, specBubbleListeners]
    apply List.filter_congr
    intro l _
    refine decide_eq_decide.mpr ?_
    rw [phaseFilter]
    constructor
    · rintro ⟨h1, h2 | h2⟩
      · exact absurd h2 (by intro h; cases h)
      · refine ⟨h1, ?_⟩
        have h3 : (false : Bool) = l.capture := by simpa using h2
        exact h3.symm
    · rintro ⟨h1, h2⟩
      exact ⟨h1, Or.inr (by simp [h2])⟩

/-! ## Registry removal lemmas -/

theorem entriesOf_cons (o' : Obj) (es : List ListenerEntry) (rest : Registry) (o₂ : Obj) :
    entriesOf ((o', es) :: rest) o₂ = if o' = o₂ then es else entriesOf rest o₂ := by
  rw [entriesOf, lookupEntries]
  split <;> rfl

theorem lookupEntries_eq_none_of_not_mem {reg : Registry} {o : Obj}
    (h : o ∉ eventObjects reg) : lookupEntries reg o = Option.none := by
  cases h4 : lookupEntries reg o with
  | none => rfl
  | some es => exact absurd (List.mem_map_of_mem Prod.fst (lookupEntries_mem h4)) h

theorem entriesOf_removeEventListener (t : EventType) (lid : Nat) (cap : Bool) :
    ∀ (reg : Registry) (o : Obj), (eventObjects reg).Nodup → ∀ o₂ : Obj,
      entriesOf (removeEventListener reg o t lid cap) o₂
        = if o₂ = o then (entriesOf reg o).filter (fun s => ¬sameKey s t lid cap)
          else entriesOf reg o₂
  | [], o, _, o₂ => by
    simp only [removeEventListener, entriesOf, lookupEntries, Option.getD, List.filter_nil]
    split <;> rfl
  | (o', es) :: rest, o, hnd, o₂ => by
    have hndt : (eventObjects rest).Nodup := by
      simp only [eventObjects, List.map_cons, List.nodup_cons] at hnd
      exact hnd.2
    have hhead : o' ∉ eventObjects rest := by
      simp only [eventObjects, List.map_cons, List.nodup_cons] at hnd
      exact hnd.1
    rw [removeEventListener]
    by_cases ho : o' = o
    · subst ho
      rw [if_pos rfl]
      have heo : entriesOf ((o', es) :: rest) o' = es := by
        rw [entriesOf_cons, if_pos rfl]
      by_cases he : (es.filter (fun s => ¬sameKey s t lid cap)).isEmpty
      · rw [if_pos he]
        by_cases h2 : o₂ = o'
        · subst h2
          rw [if_pos rfl, heo, entriesOf, lookupEntries_eq_none_of_not_mem hhead]
          rw [List.isEmpty_iff] at he
          exact he.symm
        · rw [if_neg h2, entriesOf_cons, if_neg (fun h => h2 h.symm)]
      · rw [if_neg he]
        by_cases h2 : o₂ = o'
        · subst h2
          rw [if_pos rfl, heo, entriesOf_cons, if_pos rfl]
        · rw [if_neg h2, entriesOf_cons, if_neg (fun h => h2 h.symm), entriesOf_cons,
            if_neg (fun h => h2 h.symm)]
    · rw [if_neg ho]
      by_cases h2 : o₂ = o
      · subst h2
        rw [if_pos rfl, entriesOf_cons, if_neg ho, entriesOf_cons, if_neg ho]
        have ih := entriesOf_removeEventListener t lid cap rest o₂ hndt o₂
        rw [if_pos rfl] at ih
        exact ih
      · rw [if_neg h2]
        by_cases h3 : o' = o₂
        · rw [entriesOf_cons, if_pos h3, entriesOf_cons, if_pos h3]
        · rw [entriesOf_cons, if_neg h3, entriesOf_cons, if_neg h3]
          have ih := entriesOf_removeEventListener t lid cap rest o hndt o₂
          rw [if_neg h2] at ih
          exact ih

theorem eventObjects_removeEventListener_sublist (t : EventType) (lid : Nat) (cap : Bool) :
    ∀ (reg : Registry) (o : Obj),
      List.Sublist (eventObjects (removeEventListener reg o t lid cap)) (eventObjects reg)
  | [], o => List.Sublist.refl _
  | (o', es) :: rest, o => by
    rw [removeEventListener]
    by_cases ho : o' = o
    · rw [if_pos ho]
      by_cases he : (es.filter (fun s => ¬sameKey s t lid cap)).isEmpty
      · rw [if_pos he]
        exact (List.Sublist.refl _).cons _
      · rw [if_neg he]
        exact List.Sublist.refl _
    · rw [if_neg ho]
      simp only [eventObjects, List.map_cons]
      exact (eventObjects_removeEventListener_sublist t lid cap rest o).cons₂ _

theorem fireLoop_entries_subset (etype : EventType) (phase : Phase) (target ct : Obj) :
    ∀ (snap : List ListenerEntry) (reg : Registry) (stop : Bool),
      (eventObjects reg).Nodup → ∀ o₂ : Obj,
      ∀ e ∈ entriesOf (fireLoop etype phase target ct snap reg stop).reg o₂,
        e ∈ entriesOf reg o₂
  | [], reg, stop, _, o₂, e, he => he
  | l :: rest, reg, stop, hnd, o₂, e, he => by
    rw [fireLoop] at he
    by_cases hs : l.stops = StopBehavior.stopImmediate
    · rw [if_pos hs] at he
      exact he
    · rw [if_neg hs] at he
      simp only at he
      by_cases ho : l.once = true
      · rw [if_pos ho] at he
        have hnd1 : (eventObjects (removeEventListener reg ct l.type l.lid l.capture)).Nodup :=
          hnd.sublist (eventObjects_removeEventListener_sublist l.type l.lid l.capture reg ct)
      /- chain the recursive subset through the single removal -/
        have h1 := fireLoop_entries_subset etype phase target ct rest
          (removeEventListener reg ct l.type l.lid l.capture) _ hnd1 o₂ e he
        rw [entriesOf_removeEventListener l.type l.lid l.capture reg ct hnd o₂] at h1
        by_cases h2 : o₂ = ct
        · subst h2
          rw [if_pos rfl] at h1
          exact List.mem_of_mem_filter h1
        · rw [if_neg h2] at h1
          exact h1
      · rw [if_neg ho] at he
        exact fireLoop_entries_subset etype phase target ct rest reg _ hnd o₂ e he

/-! ## C9: `once` listeners versus `stopImmediatePropagation` -/

/-- C9: take a per-object listener `L` registered with `once: true` on object
`o` that is the first entry of the filtered snapshot `handleSingleEvent`
fires for this event. If `L` calls `stopImmediatePropagation()` during its
own invocation, the loop breaks before the automatic `once` removal runs:
the registry is left untouched, `L` is still registered on `o`, and the next
matching dispatch fires `L` again. If `L`'s invocation does not call
`stopImmediatePropagation()`, `L` is removed immediately after that first
invocation: afterwards no listener with `L`'s identity remains on `o` and no
later dispatch to `o` ever fires it again (`L`'s identity assumed unique
among `o`'s entries). -/
theorem once_stopImmediate_interaction (reg : Registry) (o : Obj)
    (es frest : List ListenerEntry) (L : ListenerEntry)
    (etype : EventType) (phase : Phase) (t : Obj) (stop : Bool)
    (hnd : (eventObjects reg).Nodup)
    (hlook : lookupEntries reg o = Option.some es)
    (hsplit : es.filter (fun l => phaseFilter etype phase l) = L :: frest)
    (honce : L.once = true)
    (huniq : ∀ e ∈ es, e.lid = L.lid → e = L) :
    (L.stops = StopBehavior.stopImmediate →
      (handleSingleEvent etype phase t o reg stop).reg = reg
      ∧ (handleSingleEvent etype phase t o reg stop).recs = [mkRec L phase t o]
      ∧ L ∈ entriesOf (handleSingleEvent etype phase t o reg stop).reg o
      ∧ (handleSingleEvent etype phase t o
          (handleSingleEvent etype phase t o reg stop).reg stop).recs
          = [mkRec L phase t o])
    ∧ (L.stops ≠ StopBehavior.stopImmediate →
      (handleSingleEvent etype phase t o reg stop).recs.head?
          = Option.some (mkRec L phase t o)
      ∧ (∀ e ∈ entriesOf (handleSingleEvent etype phase t o reg stop).reg o,
          e.lid ≠ L.lid)
      ∧ ∀ (etype₂ : EventType) (phase₂ : Phase) (t₂ : Obj) (stop₂ : Bool) (r₂ : FireRecord),
          r₂ ∈ (handleSingleEvent etype₂ phase₂ t₂ o
            (handleSingleEvent etype phase t o reg stop).reg stop₂).recs →
          r₂.lid ≠ L.lid) := by
  have hmemL : L ∈ es := by
    have h1 : L ∈ es.filter (fun l => phaseFilter etype phase l) := by
      rw [hsplit]
      exact List.mem_cons_self _ _
    exact List.mem_of_mem_filter h1
  have hfire : handleSingleEvent etype phase t o reg stop
      = fireLoop etype phase t o (L :: frest) reg stop := by
    simp only [handleSingleEvent, hlook, hsplit]
  constructor
  · intro hA
    have hres : handleSingleEvent etype phase t o reg stop
        = ⟨[mkRec L phase t o], reg, stop || decide (L.stops ≠ StopBehavior.noStop)⟩ := by
      rw [hfire, fireLoop, if_pos hA]
    refine ⟨by rw [hres], by rw [hres], ?_, ?_⟩
    · rw [hres]
      rw [show (SingleResult.mk [mkRec L phase t o] reg
        (stop || decide (L.stops ≠ StopBehavior.noStop))).reg = reg from rfl]
      rw [entriesOf_eq_of_lookup hlook]
      exact hmemL
    · rw [hres]
      rw [show (SingleResult.mk [mkRec L phase t o] reg
        (stop || decide (L.stops ≠ StopBehavior.noStop))).reg = reg from rfl]
      rw [hres]
  · intro hB
    have hres : handleSingleEvent etype phase t o reg stop
        = ⟨mkRec L phase t o ::
            (fireLoop etype phase t o frest
              (removeEventListener reg o L.type L.lid L.capture)
              (stop || decide (L.stops ≠ StopBehavior.noStop))).recs,
          (fireLoop etype phase t o frest
              (removeEventListener reg o L.type L.lid L.capture)
              (stop || decide (L.stops ≠ StopBehavior.noStop))).reg,
          (fireLoop etype phase t o frest
              (removeEventListener reg o L.type L.lid L.capture)
              (stop || decide (L.stops ≠ StopBehavior.noStop))).stop⟩ := by
      rw [hfire, fireLoop, if_neg hB]
      simp only [honce, if_pos]
    have hnd1 : (eventObjects (removeEventListener reg o L.type L.lid L.capture)).Nodup :=
      hnd.sublist (eventObjects_removeEventListener_sublist L.type L.lid L.capture reg o)
    have hentries : ∀ e ∈ entriesOf (handleSingleEvent etype phase t o reg stop).reg o,
        e.lid ≠ L.lid := by
      intro e he hlid
      rw [hres] at he
      have h1 := fireLoop_entries_subset etype phase t o frest
        (removeEventListener reg o L.type L.lid L.capture) _ hnd1 o e he
      rw [entriesOf_removeEventListener L.type L.lid L.capture reg o hnd o,
        if_pos rfl, entriesOf_eq_of_lookup hlook] at h1
      rw [List.mem_filter] at h1
      have h2 : e = L := huniq e h1.1 hlid
      have h3 : sameKey e L.type L.lid L.capture := by
        rw [h2]
        exact ⟨rfl, rfl, rfl⟩
      have h4 := h1.2
      simp only [decide_eq_true_eq] at h4
      exact h4 h3
    refine ⟨by rw [hres]; rfl, hentries, ?_⟩
    intro etype₂ phase₂ t₂ stop₂ r₂ hr₂
    rw [handleSingleEvent] at hr₂
    cases hl₂ : lookupEntries (handleSingleEvent etype phase t o reg stop).reg o with
    | none =>
      rw [hl₂] at hr₂
      simp at hr₂
    | some es₂ =>
      rw [hl₂] at hr₂
      obtain ⟨e₂, he₂, hre₂⟩ := fireLoop_recs_shape etype₂ phase₂ t₂ o _ _ stop₂ r₂ hr₂
      have h5 : e₂ ∈ entriesOf (handleSingleEvent etype phase t o reg stop).reg o := by
        rw [entriesOf_eq_of_lookup hl₂]
        exact List.mem_of_mem_filter he₂
      have h6 := hentries e₂ h5
      rw [hre₂]
      exact h6

theorem once_stopImmediate_interaction_witness :
    (handleSingleEvent EventType.click Phase.atTarget 5 5
        [(5, [⟨EventType.click, 77, false, true, StopBehavior.stopImmediate⟩])] false).reg
      = [(5, [⟨EventType.click, 77, false, true, StopBehavior.stopImmediate⟩])]
    ∧ (⟨EventType.click, 77, false, true, StopBehavior.stopImmediate⟩ : ListenerEntry)
        ∈ entriesOf (handleSingleEvent EventType.click Phase.atTarget 5 5
            [(5, [⟨EventType.click, 77, false, true, StopBehavior.stopImmediate⟩])] false).reg
          5 := by
  have h := once_stopImmediate_interaction
    [(5, [⟨EventType.click, 77, false, true, StopBehavior.stopImmediate⟩])] 5
    [⟨EventType.click, 77, false, true, StopBehavior.stopImmediate⟩] []
    ⟨EventType.click, 77, false, true, StopBehavior.stopImmediate⟩
    EventType.click Phase.atTarget 5 false
    (by decide) rfl (by decide) rfl
    (by intro e he _; simpa using he)
  obtain ⟨h1, h2, h3, _⟩ := h.1 rfl
  exact ⟨h1, h3⟩

/-! ## C2: pointer capture routing -/

theorem setPointerCapture_lookup : ∀ (caps : List (Nat × Obj)) (pid : Nat) (o : Obj),
    lookupCapture (setPointerCapture caps pid o) pid = Option.some o
  | [], pid, o => by
    rw [setPointerCapture]
    show lookupCapture ([] ++ [(pid, o)]) pid = Option.some o
    rw [List.nil_append, lookupCapture, if_pos rfl]
  | (p1, p2) :: rest, pid, o => by
    rw [setPointerCapture, lookupCapture]
    by_cases hp : p1 = pid
    · rw [if_pos hp]
      show lookupCapture (((p1, p2) :: rest).map
        (fun p => if p.1 = pid then (p.1, o) else p)) pid = Option.some o
      rw [List.map_cons, lookupCapture]
      simp [hp]
    · rw [if_neg hp]
      have ih := setPointerCapture_lookup rest pid o
      cases hrest : lookupCapture rest pid with
      | some o₀ =>
        rw [setPointerCapture, hrest] at ih
        show lookupCapture (((p1, p2) :: rest).map
          (fun p => if p.1 = pid then (p.1, o) else p)) pid = Option.some o
        rw [List.map_cons, lookupCapture]
        simp only [if_neg hp]
        exact ih
      | none =>
        rw [setPointerCapture, hrest] at ih
        show lookupCapture ((p1, p2) :: rest ++ [(pid, o)]) pid = Option.some o
        rw [List.cons_append, lookupCapture, if_neg hp]
        exact ih

theorem globalRecs_filter_not_glob (st : DispatchState) (etype : EventType) (phase : Phase) :
    (globalRecs st etype phase).filter (fun r => r.glob = false) = [] := by
  rw [List.filter_eq_nil_iff]
  intro r hr
  rw [globalRecs] at hr
  obtain ⟨l, _, hl⟩ := List.mem_map.mp hr
  rw [← hl]
  simp

theorem singleRecs_filter_not_glob (etype : EventType) (phase : Phase) (target ct : Obj)
    (reg : Registry) (stop : Bool) :
    (handleSingleEvent etype phase target ct reg stop).recs.filter (fun r => r.glob = false)
      = (handleSingleEvent etype phase target ct reg stop).recs := by
  rw [List.filter_eq_self]
  intro r hr
  obtain ⟨e, hre⟩ := handleSingleEvent_recs_shape etype phase target ct reg stop r hr
  rw [hre]
  simp [mkRec]

/-- C2: while `setPointerCapture` has stored a capture entry `pid ↦ obj`,
every pointer event carrying that id other than `pointerup` / `pointercancel`
is dispatched to `obj` alone at target phase — every non-global invocation
record has `target = currentTarget = obj` and phase `AT_TARGET`, the
per-object part of the trace is computed solely from `obj`'s listener slot
(bypassing the hit-test result: changing `targetObjects` arbitrarily leaves
it unchanged), and the capture map survives. A `pointerup` / `pointercancel`
for that id instead removes the capture entry (after which lookup for that
id fails, so dispatch reverts to hit-testing) and runs the full
capturing/target/bubbling dispatch against `obj` as the target. -/
theorem pointer_capture_routing (parents : Obj → List Obj) (st : DispatchState)
    (ev : NativeEvent) (pid : Nat) (obj : Obj)
    (hpid : ev.pointerId = Option.some pid)
    (hcap : lookupCapture st.pointerCaptures pid = Option.some obj) :
    (∀ caps : List (Nat × Obj),
      lookupCapture (setPointerCapture caps pid obj) pid = Option.some obj)
    ∧ (¬(ev.type = EventType.pointerup ∨ ev.type = EventType.pointercancel) →
      (handleEvent parents st ev).1
        = globalRecs st ev.type Phase.capturing
          ++ (handleSingleEvent ev.type Phase.atTarget obj obj st.registry
              (globalStop st ev.type Phase.capturing false)).recs
      ∧ (∀ r ∈ (handleEvent parents st ev).1, r.glob = false →
          r.phase = Phase.atTarget ∧ r.target = Option.some obj
            ∧ r.currentTarget = Option.some obj)
      ∧ (handleEvent parents st ev).2.pointerCaptures = st.pointerCaptures
      ∧ ∀ alt : List Obj,
          ((handleEvent parents { st with targetObjects := alt } ev).1.filter
              (fun r => r.glob = false))
            = ((handleEvent parents st ev).1.filter (fun r => r.glob = false)))
    ∧ ((ev.type = EventType.pointerup ∨ ev.type = EventType.pointercancel) →
      (handleEvent parents st ev).1
        = globalRecs st ev.type Phase.capturing
          ++ (handleBubblingEvent parents ev.type obj st.registry
              (globalStop st ev.type Phase.capturing false)
              Option.none Option.none).recs
      ∧ (handleEvent parents st ev).2.pointerCaptures
          = erasePointerCapture st.pointerCaptures pid
      ∧ lookupCapture (handleEvent parents st ev).2.pointerCaptures pid
          = Option.none) := by
  refine ⟨fun caps => setPointerCapture_lookup caps pid obj, ?_, ?_⟩
  · intro hmove
    have hres : handleEvent parents st ev
        = (globalRecs st ev.type Phase.capturing
            ++ (handleSingleEvent ev.type Phase.atTarget obj obj st.registry
                (globalStop st ev.type Phase.capturing false)).recs,
          { st with registry := (handleSingleEvent ev.type Phase.atTarget obj obj st.registry
              (globalStop st ev.type Phase.capturing false)).reg }) := by
      rw [handleEvent, hpid]
      simp only [hcap, if_neg hmove]
    refine ⟨by rw [hres], ?_, by rw [hres], ?_⟩
    · intro r hr hglob
      rw [hres] at hr
      rcases List.mem_append.mp hr with h1 | h1
      · rw [globalRecs] at h1
        obtain ⟨l, _, hl⟩ := List.mem_map.mp h1
        rw [← hl] at hglob
        simp at hglob
      · obtain ⟨e, hre⟩ := handleSingleEvent_recs_shape _ _ _ _ _ _ r h1
        rw [hre]
        exact ⟨rfl, rfl, rfl⟩
    · intro alt
      have hres' : handleEvent parents { st with targetObjects := alt } ev
          = (globalRecs { st with targetObjects := alt } ev.type Phase.capturing
              ++ (handleSingleEvent ev.type Phase.atTarget obj obj st.registry
                  (globalStop st ev.type Phase.capturing false)).recs,
            { st with
              targetObjects := alt
              registry := (handleSingleEvent ev.type Phase.atTarget obj obj st.registry
                (globalStop st ev.type Phase.capturing false)).reg }) := by
        rw [handleEvent, hpid]
        simp only [hcap, if_neg hmove]
        rfl
      rw [hres, hres']
      simp only [List.filter_append, globalRecs_filter_not_glob]
  · intro hup
    have hres : handleEvent parents st ev
        = (globalRecs st ev.type Phase.capturing
            ++ (handleBubblingEvent parents ev.type obj st.registry
                (globalStop st ev.type Phase.capturing false)
                Option.none Option.none).recs,
          { st with
            registry := (handleBubblingEvent parents ev.type obj st.registry
              (globalStop st ev.type Phase.capturing false)
              Option.none Option.none).reg,
            pointerCaptures := erasePointerCapture st.pointerCaptures pid }) := by
      rw [handleEvent, hpid]
      simp only [hcap, if_pos hup, Option.getD_some]
    refine ⟨by rw [hres], by rw [hres], ?_⟩
    rw [hres]
    show lookupCapture (erasePointerCapture st.pointerCaptures pid) pid = Option.none
    rw [erasePointerCapture]
    induction st.pointerCaptures with
    | nil => rfl
    | cons p rest ih =>
      by_cases hp : p.1 = pid
      · simpa [hp] using ih
      · simpa [hp, lookupEntries, lookupCapture] using ih

theorem pointer_capture_routing_witness :
    (Dispatch.handleEvent (fun _ => [])
        ⟨[(1, [⟨EventType.pointermove, 30, false, false, StopBehavior.noStop⟩])], [],
          [(9, 1)], [2]⟩
        ⟨EventType.pointermove, Option.some 9⟩).1
      = globalRecs
          ⟨[(1, [⟨EventType.pointermove, 30, false, false, StopBehavior.noStop⟩])], [],
            [(9, 1)], [2]⟩ EventType.pointermove Phase.capturing
        ++ (handleSingleEvent EventType.pointermove Phase.atTarget 1 1
            [(1, [⟨EventType.pointermove, 30, false, false, StopBehavior.noStop⟩])]
            (globalStop
              ⟨[(1, [⟨EventType.pointermove, 30, false, false, StopBehavior.noStop⟩])], [],
                [(9, 1)], [2]⟩ EventType.pointermove Phase.capturing false)).recs
    ∧ (Dispatch.handleEvent (fun _ => [])
        ⟨[(1, [⟨EventType.pointermove, 30, false, false, StopBehavior.noStop⟩])], [],
          [(9, 1)], [2]⟩
        ⟨EventType.pointermove, Option.some 9⟩).2.pointerCaptures = [(9, 1)] := by
  have h := (pointer_capture_routing (fun _ => [])
    ⟨[(1, [⟨EventType.pointermove, 30, false, false, StopBehavior.noStop⟩])], [],
      [(9, 1)], [2]⟩
    ⟨EventType.pointermove, Option.some 9⟩ 9 1 rfl rfl).2.1 (by decide)
  exact ⟨h.1, h.2.2.1⟩

/-! ## C10: raycast target list -/

theorem jsSetDedup_mem : ∀ (l : List Obj) (a : Obj), a ∈ jsSetDedup l ↔ a ∈ l := by
  intro l
  induction l using jsSetDedup.induct with
  | case1 => simp [jsSetDedup]
  | case2 b rest ih =>
    intro a
    rw [jsSetDedup]
    by_cases hab : a = b
    · subst hab
      simp
    · simp only [List.mem_cons, ih a, List.mem_filter]
      constructor
      · rintro (rfl | ⟨h1, _⟩)
        · exact Or.inl rfl
        · exact Or.inr h1
      · rintro (rfl | h1)
        · exact Or.inl rfl
        · exact Or.inr ⟨h1, by simpa using hab⟩

theorem jsSetDedup_sublist : ∀ l : List Obj, List.Sublist (jsSetDedup l) l := by
  intro l
  induction l using jsSetDedup.induct with
  | case1 =>
    rw [jsSetDedup]
  | case2 b rest ih =>
    rw [jsSetDedup]
    exact (ih.trans (List.filter_sublist rest)).cons₂ _

theorem jsSetDedup_nodup : ∀ l : List Obj, (jsSetDedup l).Nodup := by
  intro l
  induction l using jsSetDedup.induct with
  | case1 =>
    rw [jsSetDedup]
    exact List.nodup_nil
  | case2 b rest ih =>
    rw [jsSetDedup, List.nodup_cons]
    refine ⟨?_, ih⟩
    intro hmem
    have h1 := (jsSetDedup_mem _ b).mp hmem
    rw [List.mem_filter] at h1
    simpa using h1.2

theorem removeLast_excludes (t : EventType) (lid : Nat) (cap : Bool) :
    ∀ (reg : Registry) (o : Obj), (eventObjects reg).Nodup →
      (entriesOf reg o).filter (fun s => ¬sameKey s t lid cap) = [] →
      o ∉ eventObjects (removeEventListener reg o t lid cap)
  | [], o, _, _ => by simp [removeEventListener, eventObjects]
  | (o', es) :: rest, o, hnd, hempty => by
    have hndt : (eventObjects rest).Nodup := by
      simp only [eventObjects, List.map_cons, List.nodup_cons] at hnd
      exact hnd.2
    have hhead : o' ∉ eventObjects rest := by
      simp only [eventObjects, List.map_cons, List.nodup_cons] at hnd
      exact hnd.1
    rw [removeEventListener]
    by_cases ho : o' = o
    · subst ho
      rw [entriesOf_cons, if_pos rfl] at hempty
      rw [if_pos rfl, if_pos (by rw [hempty]; rfl)]
      exact hhead
    · rw [if_neg ho]
      rw [entriesOf_cons, if_neg ho] at hempty
      intro hmem
      simp only [eventObjects, List.map_cons, List.mem_cons] at hmem
      rcases hmem with rfl | hmem
      · exact ho rfl
      · exact removeLast_excludes t lid cap rest o hndt hempty hmem

/-- C10 counterexample: with object `0` registered (one `click` listener) and
its child `1` unregistered but visible, a raw raycast hit sequence `[1]` —
legitimate under the three.js `intersectObjects` contract, whose
`recursive` flag defaults to `true` since r113, because `1` lies in
registered `0`'s subtree — produces `targetObjects = [1]`, an object with no
registry slot at all: the hit list does not contain only objects that
currently have a registered listener. -/
theorem updateTargets_only_listeners_cex :
    updateTargets (fun _ => true) [1] = [1]
    ∧ inRegisteredSubtree (fun o => if o = 1 then [0] else [])
        [(0, [⟨EventType.click, 10, false, false, StopBehavior.noStop⟩])] 1
    ∧ lookupEntries [(0, [⟨EventType.click, 10, false, false, StopBehavior.noStop⟩])] 1
        = Option.none := by
  refine ⟨?_, Or.inr ⟨0, by simp, by simp [eventObjects]⟩, rfl⟩
  simp [updateTargets, jsSetDedup]

/-- C10 (amended): after every raycast update, `targetObjects` is the
visible-filtered raw hit sequence with duplicates removed keeping first
occurrences: it contains only visible objects that — by the contract of
`Raycaster.intersectObjects(eventObjects)` with its default `recursive =
true` — are registered objects or descendants of registered objects, it has
no duplicates, and it is a subsequence of the visible hit sequence
(first-hit order). Removing an object's last listener deletes its registry
slot, which removes it from `eventObjects`, the list of raycast roots used
by all subsequent hit tests; objects outside every registered subtree never
appear among the hits. -/
theorem updateTargets_characterization (parents : Obj → List Obj) (reg : Registry)
    (visible : Obj → Bool) (rawHits : List Obj)
    (hcontract : ∀ o ∈ rawHits, inRegisteredSubtree parents reg o) :
    (∀ o ∈ updateTargets visible rawHits,
        visible o = true ∧ inRegisteredSubtree parents reg o)
    ∧ (updateTargets visible rawHits).Nodup
    ∧ List.Sublist (updateTargets visible rawHits) (rawHits.filter visible)
    ∧ ∀ (o : Obj) (t : EventType) (lid : Nat) (cap : Bool),
        (eventObjects reg).Nodup →
        (entriesOf reg o).filter (fun s => ¬sameKey s t lid cap) = [] →
        o ∉ eventObjects (removeEventListener reg o t lid cap) := by
  refine ⟨?_, jsSetDedup_nodup _, jsSetDedup_sublist _, ?_⟩
  · intro o hmem
    rw [updateTargets, jsSetDedup_mem, List.mem_filter] at hmem
    exact ⟨hmem.2, hcontract o hmem.1⟩
  · intro o t lid cap hnd hempty
    exact removeLast_excludes t lid cap reg o hnd hempty

theorem updateTargets_characterization_witness :
    (∀ o ∈ updateTargets (fun b => b = 0 ∨ b = 1) [1, 0, 1],
        (fun b => decide (b = 0 ∨ b = 1)) o = true
          ∧ inRegisteredSubtree (fun o' => if o' = 1 then [0] else [])
              [(0, [⟨EventType.click, 10, false, false, StopBehavior.noStop⟩])] o)
    ∧ (updateTargets (fun b => b = 0 ∨ b = 1) [1, 0, 1]).Nodup := by
  have h := updateTargets_characterization (fun o' => if o' = 1 then [0] else [])
    [(0, [⟨EventType.click, 10, false, false, StopBehavior.noStop⟩])]
    (fun b => b = 0 ∨ b = 1) [1, 0, 1]
    (by
      intro o ho
      rw [inRegisteredSubtree]
      simp only [eventObjects]
      rcases List.mem_cons.mp ho with rfl | ho2
      · exact Or.inr ⟨0, by simp, by simp⟩
      · rcases List.mem_cons.mp ho2 with rfl | ho3
        · exact Or.inl (by simp)
        · rcases List.mem_cons.mp ho3 with rfl | ho4
          · exact Or.inr ⟨0, by simp, by simp⟩
          · cases ho4)
  exact ⟨h.1, h.2.1⟩

/-! ## C1: the dispatch order without pointer capture -/

theorem optHas_some (h : List Obj) (o : Obj) : optHas (Option.some h) o = h.contains o := rfl

theorem optAdd_some (h : List Obj) (o : Obj) :
    optAdd (Option.some h) o = Option.some (h ++ [o]) := rfl

theorem walkPhase_pure (etype : EventType) (phase : Phase) (target : Obj) (reg : Registry)
    (hp : pureRegistry reg) :
    ∀ (objs : List Obj) (h : List Obj),
      walkPhase etype phase target objs reg false (Option.some h)
        = ⟨(specWalk reg etype phase target objs h).1, reg, false,
            Option.some (specWalk reg etype phase target objs h).2, false⟩
  | [], h => by rw [walkPhase, specWalk]
  | ct :: rest, h => by
    rw [walkPhase, specWalk]
    by_cases hmem : ct ∈ h
    · have h1 : optHas (Option.some h) ct = true := by
        rw [optHas_some]
        simpa using hmem
      rw [if_pos h1, if_pos hmem]
      exact walkPhase_pure etype phase target reg hp rest h
    · have h1 : optHas (Option.some h) ct = false := by
        rw [optHas_some]
        simpa using hmem
      rw [if_neg (by simp [h1]), if_neg hmem]
      have hsingle := handleSingleEvent_pure etype phase target ct reg false hp
      have hrec := walkPhase_pure etype phase target reg hp rest (h ++ [ct])
      simp only [hsingle, matchingEntries_eq_spec, optAdd_some, Bool.false_eq_true,
        if_false, hrec]

theorem handleBubblingEvent_pure (parents : Obj → List Obj) (etype : EventType)
    (target : Obj) (reg : Registry) (hp : pureRegistry reg) (hc hb : List Obj) :
    handleBubblingEvent parents etype target reg false (Option.some hc) (Option.some hb)
      = ⟨(specPerTarget parents reg etype target hc hb).1, reg, false,
          Option.some (specPerTarget parents reg etype target hc hb).2.1,
          Option.some (specPerTarget parents reg etype target hc hb).2.2⟩ := by
  rw [handleBubblingEvent, specPerTarget]
  have hw1 := walkPhase_pure etype Phase.capturing target reg hp (parents target).reverse hc
  have hsingle := handleSingleEvent_pure etype Phase.atTarget target target reg false hp
  have hw2 := walkPhase_pure etype Phase.bubbling target reg hp (parents target) (hb ++ [target])
  simp only [hw1, hsingle, matchingEntries_eq_spec, optAdd_some, Bool.false_eq_true,
    if_false, hw2, List.append_assoc]
  rfl

theorem targetsLoop_pure (parents : Obj → List Obj) (etype : EventType) (reg : Registry)
    (hp : pureRegistry reg) :
    ∀ (targets : List Obj) (hc hb : List Obj),
      targetsLoop parents etype targets reg false (Option.some hc) (Option.some hb)
        = ⟨specTargetsFold parents reg etype targets hc hb, reg, false⟩
  | [], hc, hb => by rw [targetsLoop, specTargetsFold]
  | t :: rest, hc, hb => by
    rw [targetsLoop, specTargetsFold]
    have hbub := handleBubblingEvent_pure parents etype t reg hp hc hb
    have hrec := targetsLoop_pure parents etype reg hp rest
      (specPerTarget parents reg etype t hc hb).2.1
      (specPerTarget parents reg etype t hc hb).2.2
    simp only [hbub, Bool.false_eq_true, if_false, hrec]

theorem globalStop_pure (st : DispatchState) (etype : EventType) (phase : Phase)
    (stop : Bool) (hg : pureGlobals st) : globalStop st etype phase stop = stop := by
  rw [globalStop]
  have h1 : (st.globalListeners.filter
      (fun l => l.type = etype ∧ decide (phase = Phase.capturing) = l.capture)).any
      (fun l => decide (l.stops ≠ StopBehavior.noStop)) = false := by
    rw [List.any_eq_false]
    intro l hl
    have h2 := hg l (List.mem_of_mem_filter hl)
    simp [h2]
  rw [h1, Bool.or_false]

theorem specWalk_rec_phase (reg : Registry) (etype : EventType) (ph : Phase) (target : Obj) :
    ∀ (objs h : List Obj) (r : FireRecord),
      r ∈ (specWalk reg etype ph target objs h).1 → r.phase = ph ∧ r.glob = false
  | [], h, r, hr => by rw [specWalk] at hr; cases hr
  | ct :: rest, h, r, hr => by
    rw [specWalk] at hr
    by_cases hm : ct ∈ h
    · rw [if_pos hm] at hr
      exact specWalk_rec_phase reg etype ph target rest h r hr
    · rw [if_neg hm] at hr
      rcases List.mem_append.mp hr with h1 | h1
      · obtain ⟨e, _, he⟩ := List.mem_map.mp h1
        rw [← he]
        exact ⟨rfl, rfl⟩
      · exact specWalk_rec_phase reg etype ph target rest (h ++ [ct]) r h1

theorem countP_phase_zero (recs : List FireRecord) (ph ph₂ : Phase)
    (hall : ∀ r ∈ recs, r.phase = ph ∧ r.glob = false) (hne : ph ≠ ph₂) (o : Obj) :
    recs.countP
      (fun r => r.currentTarget = Option.some o ∧ r.phase = ph₂ ∧ r.glob = false) = 0 := by
  rw [List.countP_eq_zero]
  intro r hr
  have h1 := (hall r hr).1
  simp only [decide_eq_true_eq, not_and]
  intro _ h2
  exact absurd (h1 ▸ h2) hne

theorem mkRec_block_countP (xs : List ListenerEntry) (ph : Phase) (target ct o : Obj) :
    (xs.map (fun e => mkRec e ph target ct)).countP
      (fun r => r.currentTarget = Option.some o ∧ r.phase = ph ∧ r.glob = false)
      = if ct = o then xs.length else 0 := by
  rw [List.countP_map]
  by_cases h : ct = o
  · subst h
    rw [if_pos rfl]
    rw [List.countP_eq_length]
    intro e _
    simp [mkRec]
  · rw [if_neg h, List.countP_eq_zero]
    intro e _
    simp only [mkRec, Function.comp_apply, decide_eq_true_eq, not_and]
    intro h1
    exact absurd (Option.some.inj h1) h

theorem specWalk_countP (reg : Registry) (etype : EventType) (ph : Phase) (target o : Obj) :
    ∀ (objs h : List Obj),
      (o ∈ h → (specWalk reg etype ph target objs h).1.countP
          (fun r => r.currentTarget = Option.some o ∧ r.phase = ph ∧ r.glob = false) = 0)
      ∧ (specWalk reg etype ph target objs h).1.countP
          (fun r => r.currentTarget = Option.some o ∧ r.phase = ph ∧ r.glob = false)
          ≤ (specPhaseListeners reg o etype ph).length
      ∧ (0 < (specWalk reg etype ph target objs h).1.countP
          (fun r => r.currentTarget = Option.some o ∧ r.phase = ph ∧ r.glob = false) →
          o ∈ (specWalk reg etype ph target objs h).2)
      ∧ (o ∈ h → o ∈ (specWalk reg etype ph target objs h).2)
  | [], h => by
    rw [specWalk]
    exact ⟨fun _ => rfl, Nat.zero_le _, fun h0 => absurd h0 (by simp), fun hh => hh⟩
  | ct :: rest, h => by
    rw [specWalk]
    by_cases hm : ct ∈ h
    · rw [if_pos hm]
      exact specWalk_countP reg etype ph target o rest h
    · rw [if_neg hm]
      have ih := specWalk_countP reg etype ph target o rest (h ++ [ct])
      simp only [List.countP_append, mkRec_block_countP]
      by_cases hco : ct = o
      · subst hco
        rw [if_pos rfl]
        have h0 : ct ∈ h ++ [ct] := by simp
        have hz := ih.1 h0
        rw [hz]
        refine ⟨fun hh => absurd hh hm, ?_, fun _ => ih.2.2.2 h0, fun hh => absurd hh hm⟩
        simp
      · rw [if_neg hco]
        simp only [Nat.zero_add]
        refine ⟨fun hh => ih.1 (by simp [hh]), ih.2.1, ih.2.2.1, fun hh => ih.2.2.2 (by simp [hh])⟩

theorem specPerTarget_handledCapture (parents : Obj → List Obj) (reg : Registry)
    (etype : EventType) (t : Obj) (hc hb : List Obj) :
    (specPerTarget parents reg etype t hc hb).2.1
      = (specWalk reg etype Phase.capturing t (parents t).reverse hc).2 ++ [t] := rfl

theorem specPerTarget_handledBubble (parents : Obj → List Obj) (reg : Registry)
    (etype : EventType) (t : Obj) (hc hb : List Obj) :
    (specPerTarget parents reg etype t hc hb).2.2
      = (specWalk reg etype Phase.bubbling t (parents t) (hb ++ [t])).2 := rfl

theorem specPerTarget_countP_cap (parents : Obj → List Obj) (reg : Registry)
    (etype : EventType) (t o : Obj) (hc hb : List Obj) :
    (specPerTarget parents reg etype t hc hb).1.countP
        (fun r => r.currentTarget = Option.some o ∧ r.phase = Phase.capturing ∧ r.glob = false)
      = (specWalk reg etype Phase.capturing t (parents t).reverse hc).1.countP
        (fun r => r.currentTarget = Option.some o ∧ r.phase = Phase.capturing
          ∧ r.glob = false) := by
  rw [specPerTarget]
  simp only [List.countP_append]
  have h1 : ∀ r ∈ (specTargetListeners reg t etype).map
      (fun e => mkRec e Phase.atTarget t t), r.phase = Phase.atTarget ∧ r.glob = false := by
    intro r hr
    obtain ⟨e, _, he⟩ := List.mem_map.mp hr
    rw [← he]
    exact ⟨rfl, rfl⟩
  have h2 := countP_phase_zero _ Phase.atTarget Phase.capturing h1 (by decide) o
  have h3 := countP_phase_zero _ Phase.bubbling Phase.capturing
    (specWalk_rec_phase reg etype Phase.bubbling t (parents t) (hb ++ [t]))
    (by decide) o
  omega

theorem specPerTarget_countP_bub (parents : Obj → List Obj) (reg : Registry)
    (etype : EventType) (t o : Obj) (hc hb : List Obj) :
    (specPerTarget parents reg etype t hc hb).1.countP
        (fun r => r.currentTarget = Option.some o ∧ r.phase = Phase.bubbling ∧ r.glob = false)
      = (specWalk reg etype Phase.bubbling t (parents t) (hb ++ [t])).1.countP
        (fun r => r.currentTarget = Option.some o ∧ r.phase = Phase.bubbling
          ∧ r.glob = false) := by
  rw [specPerTarget]
  simp only [List.countP_append]
  have h1 : ∀ r ∈ (specTargetListeners reg t etype).map
      (fun e => mkRec e Phase.atTarget t t), r.phase = Phase.atTarget ∧ r.glob = false := by
    intro r hr
    obtain ⟨e, _, he⟩ := List.mem_map.mp hr
    rw [← he]
    exact ⟨rfl, rfl⟩
  have h2 := countP_phase_zero _ Phase.atTarget Phase.bubbling h1 (by decide) o
  have h3 := countP_phase_zero _ Phase.capturing Phase.bubbling
    (specWalk_rec_phase reg etype Phase.capturing t (parents t).reverse hc)
    (by decide) o
  omega

theorem specTargetsFold_countP_cap (parents : Obj → List Obj) (reg : Registry)
    (etype : EventType) (o : Obj) :
    ∀ (targets hc hb : List Obj),
      (o ∈ hc → (specTargetsFold parents reg etype targets hc hb).countP
          (fun r => r.currentTarget = Option.some o ∧ r.phase = Phase.capturing
            ∧ r.glob = false) = 0)
      ∧ (specTargetsFold parents reg etype targets hc hb).countP
          (fun r => r.currentTarget = Option.some o ∧ r.phase = Phase.capturing
            ∧ r.glob = false)
          ≤ (specCaptureListeners reg o etype).length
  | [], hc, hb => by
    rw [specTargetsFold]
    exact ⟨fun _ => rfl, Nat.zero_le _⟩
  | t :: rest, hc, hb => by
    rw [specTargetsFold]
    simp only [List.countP_append, specPerTarget_countP_cap]
    have hw := specWalk_countP reg etype Phase.capturing t o (parents t).reverse hc
    have ih := specTargetsFold_countP_cap parents reg etype o rest
      (specPerTarget parents reg etype t hc hb).2.1
      (specPerTarget parents reg etype t hc hb).2.2
    constructor
    · intro hh
      rw [hw.1 hh, ih.1 ?_]
      rw [specPerTarget_handledCapture]
      exact List.mem_append_left _ (hw.2.2.2 hh)
    · rcases Nat.eq_zero_or_pos ((specWalk reg etype Phase.capturing t
          (parents t).reverse hc).1.countP
          (fun r => r.currentTarget = Option.some o ∧ r.phase = Phase.capturing
            ∧ r.glob = false)) with h0 | h0
      · rw [h0, Nat.zero_add]
        exact ih.2
      · have hmem : o ∈ (specPerTarget parents reg etype t hc hb).2.1 := by
          rw [specPerTarget_handledCapture]
          exact List.mem_append_left _ (hw.2.2.1 h0)
        rw [ih.1 hmem]
        have hb1 := hw.2.1
        have hEq : specPhaseListeners reg o etype Phase.capturing
            = specCaptureListeners reg o etype := rfl
        rw [hEq] at hb1
        omega

theorem specTargetsFold_countP_bub (parents : Obj → List Obj) (reg : Registry)
    (etype : EventType) (o : Obj) :
    ∀ (targets hc hb : List Obj),
      (o ∈ hb → (specTargetsFold parents reg etype targets hc hb).countP
          (fun r => r.currentTarget = Option.some o ∧ r.phase = Phase.bubbling
            ∧ r.glob = false) = 0)
      ∧ (specTargetsFold parents reg etype targets hc hb).countP
          (fun r => r.currentTarget = Option.some o ∧ r.phase = Phase.bubbling
            ∧ r.glob = false)
          ≤ (specBubbleListeners reg o etype).length
  | [], hc, hb => by
    rw [specTargetsFold]
    exact ⟨fun _ => rfl, Nat.zero_le _⟩
  | t :: rest, hc, hb => by
    rw [specTargetsFold]
    simp only [List.countP_append, specPerTarget_countP_bub]
    have hw := specWalk_countP reg etype Phase.bubbling t o (parents t) (hb ++ [t])
    have ih := specTargetsFold_countP_bub parents reg etype o rest
      (specPerTarget parents reg etype t hc hb).2.1
      (specPerTarget parents reg etype t hc hb).2.2
    constructor
    · intro hh
      have hh2 : o ∈ hb ++ [t] := List.mem_append_left _ hh
      rw [hw.1 hh2, ih.1 ?_]
      rw [specPerTarget_handledBubble]
      exact hw.2.2.2 hh2
    · rcases Nat.eq_zero_or_pos ((specWalk reg etype Phase.bubbling t
          (parents t) (hb ++ [t])).1.countP
          (fun r => r.currentTarget = Option.some o ∧ r.phase = Phase.bubbling
            ∧ r.glob = false)) with h0 | h0
      · rw [h0, Nat.zero_add]
        exact ih.2
      · have hmem : o ∈ (specPerTarget parents reg etype t hc hb).2.2 := by
          rw [specPerTarget_handledBubble]
          exact hw.2.2.1 h0
        rw [ih.1 hmem]
        have hb1 := hw.2.1
        have hEq : specPhaseListeners reg o etype Phase.bubbling
            = specBubbleListeners reg o etype := rfl
        rw [hEq] at hb1
        omega

theorem globalRecs_countP_zero (st : DispatchState) (etype : EventType) (phase ph₂ : Phase)
    (o : Obj) :
    (globalRecs st etype phase).countP
      (fun r => r.currentTarget = Option.some o ∧ r.phase = ph₂ ∧ r.glob = false) = 0 := by
  rw [List.countP_eq_zero]
  intro r hr
  rw [globalRecs] at hr
  obtain ⟨l, _, hl⟩ := List.mem_map.mp hr
  rw [← hl]
  simp

/-- C1: for every native DOM event dispatched while no pointer capture is
active for it, and with listeners that neither stop propagation nor are
`once` listeners (so that dispatch does not truncate or edit the registry),
the listeners fire in exactly the claimed order: global capturing-phase
listeners first; then, for each hit object in first-hit order, its
ancestors' capturing-phase listeners from the scene root down, the hit
object's own listeners (at-target, regardless of capture flag), and its
ancestors' bubbling-phase listeners from the nearest ancestor up, each
within one object and phase in insertion order (this is `specTrace`,
the transcription of the claimed order); finally global bubbling-phase
listeners. The dispatcher state is unchanged, and — because the
handled-capture and handled-bubble sets are shared across hit objects — an
object's capturing (respectively bubbling) listeners fire at most once per
native event: the number of capturing-phase (bubbling-phase) records at any
object never exceeds its number of registered capturing (bubbling)
listeners for the type. -/
theorem dispatch_order (parents : Obj → List Obj) (st : DispatchState) (ev : NativeEvent)
    (hnocap : ∀ pid : Nat, ev.pointerId = Option.some pid →
      lookupCapture st.pointerCaptures pid = Option.none)
    (hreg : pureRegistry st.registry) (hglob : pureGlobals st) :
    (handleEvent parents st ev).1 = specTrace parents st ev.type
    ∧ (handleEvent parents st ev).2 = st
    ∧ ∀ o : Obj,
        (handleEvent parents st ev).1.countP
          (fun r => r.currentTarget = Option.some o ∧ r.phase = Phase.capturing
            ∧ r.glob = false)
          ≤ (specCaptureListeners st.registry o ev.type).length
        ∧ (handleEvent parents st ev).1.countP
          (fun r => r.currentTarget = Option.some o ∧ r.phase = Phase.bubbling
            ∧ r.glob = false)
          ≤ (specBubbleListeners st.registry o ev.type).length := by
  have hco : (match ev.pointerId with
      | Option.some pid => lookupCapture st.pointerCaptures pid
      | Option.none => Option.none) = (Option.none : Option Obj) := by
    cases hp : ev.pointerId with
    | none => rfl
    | some pid => exact hnocap pid hp
  have hstop := globalStop_pure st ev.type Phase.capturing false hglob
  have htl := targetsLoop_pure parents ev.type st.registry hreg st.targetObjects [] []
  have hres : handleEvent parents st ev
      = (globalRecs st ev.type Phase.capturing
          ++ specTargetsFold parents st.registry ev.type st.targetObjects [] []
          ++ globalRecs st ev.type Phase.bubbling, st) := by
    rw [handleEvent]
    simp only [hco, hstop, htl]
  refine ⟨by rw [hres, specTrace], by rw [hres], ?_⟩
  intro o
  rw [hres]
  simp only [List.countP_append]
  have hg1 := globalRecs_countP_zero st ev.type Phase.capturing Phase.capturing o
  have hg2 := globalRecs_countP_zero st ev.type Phase.bubbling Phase.capturing o
  have hg3 := globalRecs_countP_zero st ev.type Phase.capturing Phase.bubbling o
  have hg4 := globalRecs_countP_zero st ev.type Phase.bubbling Phase.bubbling o
  have hf1 := (specTargetsFold_countP_cap parents st.registry ev.type o
    st.targetObjects [] []).2
  have hf2 := (specTargetsFold_countP_bub parents st.registry ev.type o
    st.targetObjects [] []).2
  constructor
  · omega
  · omega

theorem dispatch_order_witness :
    (handleEvent (fun o => if o = 2 then [1, 0] else if o = 1 then [0] else [])
        ⟨[(0, [⟨EventType.click, 10, true, false, StopBehavior.noStop⟩,
              ⟨EventType.click, 11, false, false, StopBehavior.noStop⟩]),
          (2, [⟨EventType.click, 12, false, false, StopBehavior.noStop⟩])],
          [⟨EventType.click, 20, true, false, StopBehavior.noStop⟩,
            ⟨EventType.click, 21, false, false, StopBehavior.noStop⟩],
          [], [2, 1]⟩
        ⟨EventType.click, Option.none⟩).1
      = specTrace (fun o => if o = 2 then [1, 0] else if o = 1 then [0] else [])
        ⟨[(0, [⟨EventType.click, 10, true, false, StopBehavior.noStop⟩,
              ⟨EventType.click, 11, false, false, StopBehavior.noStop⟩]),
          (2, [⟨EventType.click, 12, false, false, StopBehavior.noStop⟩])],
          [⟨EventType.click, 20, true, false, StopBehavior.noStop⟩,
            ⟨EventType.click, 21, false, false, StopBehavior.noStop⟩],
          [], [2, 1]⟩
        EventType.click
    ∧ (handleEvent (fun o => if o = 2 then [1, 0] else if o = 1 then [0] else [])
        ⟨[(0, [⟨EventType.click, 10, true, false, StopBehavior.noStop⟩,
              ⟨EventType.click, 11, false, false, StopBehavior.noStop⟩]),
          (2, [⟨EventType.click, 12, false, false, StopBehavior.noStop⟩])],
          [⟨EventType.click, 20, true, false, StopBehavior.noStop⟩,
            ⟨EventType.click, 21, false, false, StopBehavior.noStop⟩],
          [], [2, 1]⟩
        ⟨EventType.click, Option.none⟩).2
      = ⟨[(0, [⟨EventType.click, 10, true, false, StopBehavior.noStop⟩,
              ⟨EventType.click, 11, false, false, StopBehavior.noStop⟩]),
          (2, [⟨EventType.click, 12, false, false, StopBehavior.noStop⟩])],
          [⟨EventType.click, 20, true, false, StopBehavior.noStop⟩,
            ⟨EventType.click, 21, false, false, StopBehavior.noStop⟩],
          [], [2, 1]⟩ := by
  have h := dispatch_order
    (fun o => if o = 2 then [1, 0] else if o = 1 then [0] else [])
    ⟨[(0, [⟨EventType.click, 10, true, false, StopBehavior.noStop⟩,
          ⟨EventType.click, 11, false, false, StopBehavior.noStop⟩]),
      (2, [⟨EventType.click, 12, false, false, StopBehavior.noStop⟩])],
      [⟨EventType.click, 20, true, false, StopBehavior.noStop⟩,
        ⟨EventType.click, 21, false, false, StopBehavior.noStop⟩],
      [], [2, 1]⟩
    ⟨EventType.click, Option.none⟩
    (fun pid hp => Option.noConfusion hp) (by decide) (by decide)
  exact ⟨h.1, h.2.1⟩

end Dispatch

end ThreeBits
